import Mathlib

set_option maxRecDepth 8000

/-
Verification development for the wpphooks webhook ingest-and-projection
service.  The TypeScript sources are embedded shallowly: pure functions
become Lean functions, database-effecting code becomes explicit state
passing, JavaScript numbers are modelled as integers (the payloads in
scope carry integral numbers only), and JavaScript Date values are epoch
milliseconds (Int).
-/

namespace Wpp

/-! ## Byte and hex utilities -/

/-- UTF-8 encoding of a single character as byte values. -/
def utf8Char (c : Char) : List Nat :=
  let n := c.toNat
  if n < 128 then [n]
  else if n < 2048 then [192 + n / 64, 128 + n % 64]
  else if n < 65536 then [224 + n / 4096, 128 + (n / 64) % 64, 128 + n % 64]
  else [240 + n / 262144, 128 + (n / 4096) % 64, 128 + (n / 64) % 64, 128 + n % 64]

/-- UTF-8 encoding of a string as a list of byte values. -/
def utf8Encode (s : String) : List Nat :=
  s.data.foldr (fun c acc => utf8Char c ++ acc) []

/-- Lowercase hex digit for a value below 16. -/
def hexChar (n : Nat) : Char :=
  if n < 10 then Char.ofNat (48 + n) else Char.ofNat (87 + n)

/-- Decides whether a character is a lowercase hexadecimal digit. -/
def isLowerHexDigit (c : Char) : Bool :=
  (48 ≤ c.toNat && c.toNat ≤ 57) || (97 ≤ c.toNat && c.toNat ≤ 102)

/-- Removes leading and trailing whitespace from a character list. -/
def trimChars (cs : List Char) : List Char :=
  ((cs.dropWhile Char.isWhitespace).reverse.dropWhile Char.isWhitespace).reverse

/-- Model of String.prototype.trim. -/
def jsTrim (s : String) : String :=
  String.mk (trimChars s.data)

/-- Model of String.prototype.toLowerCase on the ASCII payloads in
scope. -/
def jsToLower (s : String) : String :=
  String.mk (s.data.map Char.toLower)

/-- Model of String.prototype.toUpperCase on the ASCII payloads in
scope. -/
def jsToUpper (s : String) : String :=
  String.mk (s.data.map Char.toUpper)

/-! ## SHA-256 (FIPS 180-4), the hash used by createHash of the crypto module -/

/-- Modulus for 32-bit words. -/
def w32 : Nat := 4294967296

/-- Right rotation of a 32-bit word. -/
def rotr (n x : Nat) : Nat :=
  ((x >>> n) + (x <<< (32 - n))) % w32

/-- First sixty-four primes, sources of the SHA-256 round constants. -/
def primes64 : List Nat :=
  [2, 3, 5, 7, 11, 13, 17, 19, 23, 29, 31, 37, 41, 43, 47, 53,
   59, 61, 67, 71, 73, 79, 83, 89, 97, 101, 103, 107, 109, 113, 127, 131,
   137, 139, 149, 151, 157, 163, 167, 173, 179, 181, 191, 193, 197, 199, 211, 223,
   227, 229, 233, 239, 241, 251, 257, 263, 269, 271, 277, 281, 283, 293, 307, 311]

/-- Binary search step for the integer cube root. -/
def cbrtSearch (n : Nat) : Nat → Nat → Nat → Nat
  | 0, lo, _ => lo
  | fuel + 1, lo, hi =>
    if hi ≤ lo + 1 then lo
    else
      let mid := (lo + hi) / 2
      if mid * mid * mid ≤ n then cbrtSearch n fuel mid hi else cbrtSearch n fuel lo mid

/-- Integer cube root. -/
def natCbrt (n : Nat) : Nat :=
  cbrtSearch n 256 0 (n + 1)

/-- Binary search step for the integer square root. -/
def sqrtSearch (n : Nat) : Nat → Nat → Nat → Nat
  | 0, lo, _ => lo
  | fuel + 1, lo, hi =>
    if hi ≤ lo + 1 then lo
    else
      let mid := (lo + hi) / 2
      if mid * mid ≤ n then sqrtSearch n fuel mid hi else sqrtSearch n fuel lo mid

/-- Integer square root. -/
def natSqrt (n : Nat) : Nat :=
  sqrtSearch n 256 0 (n + 1)

/-- SHA-256 round constants: fractional cube roots of the first 64 primes. -/
def sha256K : List Nat :=
  primes64.map (fun p => natCbrt (p * 2 ^ 96) % w32)

/-- Working state of the compression function: eight 32-bit words. -/
structure Sha256State where
  a : Nat
  b : Nat
  c : Nat
  d : Nat
  e : Nat
  f : Nat
  g : Nat
  h : Nat
deriving Repr, DecidableEq

/-- Initial hash state: fractional square roots of the first 8 primes. -/
def sha256Init : Sha256State :=
  ⟨natSqrt (2 * 2 ^ 64) % w32, natSqrt (3 * 2 ^ 64) % w32,
   natSqrt (5 * 2 ^ 64) % w32, natSqrt (7 * 2 ^ 64) % w32,
   natSqrt (11 * 2 ^ 64) % w32, natSqrt (13 * 2 ^ 64) % w32,
   natSqrt (17 * 2 ^ 64) % w32, natSqrt (19 * 2 ^ 64) % w32⟩

/-- Choice function of the compression rounds. -/
def shaCh (e f g : Nat) : Nat :=
  (e &&& f) ^^^ ((e ^^^ 4294967295) &&& g)

/-- Majority function of the compression rounds. -/
def shaMaj (a b c : Nat) : Nat :=
  (a &&& b) ^^^ (a &&& c) ^^^ (b &&& c)

/-- Big sigma-0 mixing function. -/
def bSig0 (x : Nat) : Nat := rotr 2 x ^^^ rotr 13 x ^^^ rotr 22 x

/-- Big sigma-1 mixing function. -/
def bSig1 (x : Nat) : Nat := rotr 6 x ^^^ rotr 11 x ^^^ rotr 25 x

/-- Small sigma-0 schedule function. -/
def sSig0 (x : Nat) : Nat := rotr 7 x ^^^ rotr 18 x ^^^ (x >>> 3)

/-- Small sigma-1 schedule function. -/
def sSig1 (x : Nat) : Nat := rotr 17 x ^^^ rotr 19 x ^^^ (x >>> 10)

/-- One compression round with round constant k and schedule word w. -/
def sha256Round (s : Sha256State) (k w : Nat) : Sha256State :=
  let t1 := (s.h + bSig1 s.e + shaCh s.e s.f s.g + k + w) % w32
  let t2 := (bSig0 s.a + shaMaj s.a s.b s.c) % w32
  ⟨(t1 + t2) % w32, s.a, s.b, s.c, (s.d + t1) % w32, s.e, s.f, s.g⟩

/-- Appends the next message-schedule word. -/
def scheduleStep (acc : List Nat) : List Nat :=
  let i := acc.length
  acc ++ [(sSig1 (acc.getD (i - 2) 0) + acc.getD (i - 7) 0 +
           sSig0 (acc.getD (i - 15) 0) + acc.getD (i - 16) 0) % w32]

/-- Expands 16 block words into the 64-entry message schedule. -/
def buildSchedule (ws : List Nat) : List Nat :=
  scheduleStep^[48] ws

/-- Adds two states word-wise modulo 2 to the 32. -/
def addStates (x y : Sha256State) : Sha256State :=
  ⟨(x.a + y.a) % w32, (x.b + y.b) % w32, (x.c + y.c) % w32, (x.d + y.d) % w32,
   (x.e + y.e) % w32, (x.f + y.f) % w32, (x.g + y.g) % w32, (x.h + y.h) % w32⟩

/-- Compression of one 16-word block into the chaining state. -/
def sha256Compress (st : Sha256State) (block : List Nat) : Sha256State :=
  let kws := List.zip sha256K (buildSchedule block)
  addStates st (kws.foldl (fun s kw => sha256Round s kw.1 kw.2) st)

/-- Big-endian bytes of a number, fixed width. -/
def toBytesBE : Nat → Nat → List Nat
  | 0, _ => []
  | k + 1, n => toBytesBE k (n / 256) ++ [n % 256]

/-- Groups bytes into big-endian 32-bit words. -/
def bytesToWords : List Nat → List Nat
  | b0 :: b1 :: b2 :: b3 :: rest => (((b0 * 256 + b1) * 256 + b2) * 256 + b3) :: bytesToWords rest
  | _ => []

/-- SHA-256 message padding: a one bit, zeros, and the 64-bit bit length. -/
def padMessage (msg : List Nat) : List Nat :=
  msg ++ [128] ++ List.replicate ((119 - msg.length % 64) % 64) 0 ++ toBytesBE 8 (8 * msg.length)

/-- Folds the compression function over consecutive 16-word blocks,
with fuel bounding the number of iterations. -/
def processBlocksAux : Nat → Sha256State → List Nat → Sha256State
  | 0, st, _ => st
  | fuel + 1, st, ws =>
    if ws = [] then st
    else processBlocksAux fuel (sha256Compress st (ws.take 16)) (ws.drop 16)

/-- Folds the compression function over consecutive 16-word blocks. -/
def processBlocks (st : Sha256State) (ws : List Nat) : Sha256State :=
  processBlocksAux ws.length st ws

/-- SHA-256 digest of a byte list as eight 32-bit words. -/
def sha256Words (msg : List Nat) : List Nat :=
  let st := processBlocks sha256Init (bytesToWords (padMessage msg))
  [st.a, st.b, st.c, st.d, st.e, st.f, st.g, st.h]

/-- Nibbles of a 32-bit word, most significant first. -/
def nibbles (word : Nat) : List Nat :=
  [word / 268435456, word / 16777216, word / 1048576, word / 65536,
   word / 4096, word / 256, word / 16, word]

/-- Hex rendering of one 32-bit word as eight lowercase digits. -/
def wordHex (word : Nat) : List Char :=
  (nibbles word).map (fun n => hexChar (n % 16))

/-- Hex digest of a byte list. -/
def sha256HexBytes (msg : List Nat) : String :=
  String.mk ((sha256Words msg).foldr (fun w acc => wordHex w ++ acc) [])

/-- Model of createHash applied to sha256 with hex digest, on a UTF-8 string. -/
def sha256hex (s : String) : String :=
  sha256HexBytes (utf8Encode s)

/-! ## JSON values

JavaScript values flowing through the service are modelled by the Json
type below.  Numbers are modelled as integers: every payload field the
service interprets (timestamps, error codes, identifiers) is integral,
and fractional literals are outside the model. -/

/-- Model of a parsed JSON value. -/
inductive Json where
  | null
  | bool (b : Bool)
  | num (n : Int)
  | str (s : String)
  | arr (items : List Json)
  | obj (entries : List (String × Json))
deriving Inhabited

mutual

/-- Number of nodes of a JSON value. -/
def jsonSize : Json → Nat
  | .null => 1
  | .bool _ => 1
  | .num _ => 1
  | .str _ => 1
  | .arr items => 1 + jsonSizeList items
  | .obj entries => 1 + jsonSizeEntries entries

/-- Number of nodes of a list of JSON values. -/
def jsonSizeList : List Json → Nat
  | [] => 0
  | j :: rest => jsonSize j + jsonSizeList rest

/-- Number of nodes of a list of JSON object entries. -/
def jsonSizeEntries : List (String × Json) → Nat
  | [] => 0
  | (_, j) :: rest => jsonSize j + jsonSizeEntries rest

end

/-! ## JSON parser, the model of JSON.parse -/

/-- Skips JSON whitespace. -/
def skipWs : List Char → List Char
  | c :: rest => if c = ' ' || c = '\t' || c = '\n' || c = '\r' then skipWs rest else c :: rest
  | [] => []

/-- Splits the longest run of decimal digits off a character list. -/
def takeDigits : List Char → List Char × List Char
  | [] => ([], [])
  | c :: rest =>
    if c.isDigit then
      let p := takeDigits rest
      (c :: p.1, p.2)
    else ([], c :: rest)

/-- Decimal value of a digit list. -/
def digitsToNat (ds : List Char) : Nat :=
  ds.foldl (fun acc c => acc * 10 + (c.toNat - 48)) 0

/-- Value of one hex digit, if the character is one. -/
def hexDigitVal (c : Char) : Option Nat :=
  if 48 ≤ c.toNat && c.toNat ≤ 57 then some (c.toNat - 48)
  else if 97 ≤ c.toNat && c.toNat ≤ 102 then some (c.toNat - 87)
  else if 65 ≤ c.toNat && c.toNat ≤ 70 then some (c.toNat - 55)
  else none

/-- Parses the body of a JSON string literal, the opening quote consumed. -/
def parseStrChars : Nat → List Char → Option (List Char × List Char)
  | 0, _ => none
  | _ + 1, [] => none
  | fuel + 1, c :: rest =>
    if c = '"' then some ([], rest)
    else if c = '\\' then
      match rest with
      | 'n' :: r => (parseStrChars fuel r).map (fun p => ('\n' :: p.1, p.2))
      | 't' :: r => (parseStrChars fuel r).map (fun p => ('\t' :: p.1, p.2))
      | 'r' :: r => (parseStrChars fuel r).map (fun p => ('\r' :: p.1, p.2))
      | 'b' :: r => (parseStrChars fuel r).map (fun p => (Char.ofNat 8 :: p.1, p.2))
      | 'f' :: r => (parseStrChars fuel r).map (fun p => (Char.ofNat 12 :: p.1, p.2))
      | '"' :: r => (parseStrChars fuel r).map (fun p => ('"' :: p.1, p.2))
      | '\\' :: r => (parseStrChars fuel r).map (fun p => ('\\' :: p.1, p.2))
      | '/' :: r => (parseStrChars fuel r).map (fun p => ('/' :: p.1, p.2))
      | 'u' :: h1 :: h2 :: h3 :: h4 :: r =>
        match hexDigitVal h1, hexDigitVal h2, hexDigitVal h3, hexDigitVal h4 with
        | some a, some b, some c2, some d =>
          (parseStrChars fuel r).map (fun p => (Char.ofNat (((a * 16 + b) * 16 + c2) * 16 + d) :: p.1, p.2))
        | _, _, _, _ => none
      | _ => none
    else if c.toNat < 32 then none
    else (parseStrChars fuel rest).map (fun p => (c :: p.1, p.2))

/-- Replaces the value under a key or appends a fresh entry, as assignment
to a JavaScript object property does while building a parsed object. -/
def setEntry (entries : List (String × Json)) (k : String) (v : Json) : List (String × Json) :=
  if entries.any (fun e => e.1 = k) then
    entries.map (fun e => if e.1 = k then (k, v) else e)
  else entries ++ [(k, v)]

/-- Parses an optionally signed JSON integer literal.  Leading zeros are
rejected as JSON.parse does; fractional and exponent forms are outside
the model. -/
def parseJNum (cs : List Char) : Option (Json × List Char) :=
  let signed := cs.head? = some '-'
  let body := if signed then cs.tail else cs
  let p := takeDigits body
  match p.1 with
  | [] => none
  | d :: ds =>
    if d = '0' && ds ≠ [] then none
    else
      let n : Int := Int.ofNat (digitsToNat (d :: ds))
      some (.num (if signed then -n else n), p.2)

mutual

/-- Parses one JSON value. -/
def parseJVal : Nat → List Char → Option (Json × List Char)
  | 0, _ => none
  | fuel + 1, cs =>
    match skipWs cs with
    | 'n' :: 'u' :: 'l' :: 'l' :: rest => some (.null, rest)
    | 't' :: 'r' :: 'u' :: 'e' :: rest => some (.bool true, rest)
    | 'f' :: 'a' :: 'l' :: 's' :: 'e' :: rest => some (.bool false, rest)
    | '"' :: rest => (parseStrChars (rest.length + 1) rest).map (fun p => (.str (String.mk p.1), p.2))
    | '[' :: rest =>
      (match skipWs rest with
       | ']' :: r => some (.arr [], r)
       | other => (parseJItems fuel other).map (fun p => (.arr p.1, p.2)))
    | '\x7b' :: rest =>
      (match skipWs rest with
       | '\x7d' :: r => some (.obj [], r)
       | other => (parseJEntries fuel [] other).map (fun p => (.obj p.1, p.2)))
    | other => parseJNum other

/-- Parses the comma-separated items of a JSON array, up to the closing bracket. -/
def parseJItems : Nat → List Char → Option (List Json × List Char)
  | 0, _ => none
  | fuel + 1, cs =>
    match parseJVal fuel cs with
    | none => none
    | some (v, rest) =>
      match skipWs rest with
      | ',' :: r => (parseJItems fuel r).map (fun p => (v :: p.1, p.2))
      | ']' :: r => some ([v], r)
      | _ => none

/-- Parses the comma-separated entries of a JSON object, up to the closing brace. -/
def parseJEntries : Nat → List (String × Json) → List Char → Option (List (String × Json) × List Char)
  | 0, _, _ => none
  | fuel + 1, acc, cs =>
    match skipWs cs with
    | '"' :: rest =>
      match parseStrChars (rest.length + 1) rest with
      | none => none
      | some (kcs, rest2) =>
        match skipWs rest2 with
        | ':' :: rest3 =>
          match parseJVal fuel rest3 with
          | none => none
          | some (v, rest4) =>
            let acc2 := setEntry acc (String.mk kcs) v
            match skipWs rest4 with
            | ',' :: r => parseJEntries fuel acc2 r
            | '\x7d' :: r => some (acc2, r)
            | _ => none
        | _ => none
    | _ => none

end

/-- Model of JSON.parse: none models a thrown SyntaxError. -/
def jsonParse (s : String) : Option Json :=
  match parseJVal (s.length + 1) s.data with
  | some (v, rest) => if skipWs rest = [] then some v else none
  | none => none

/-! ## NormalizerService: lookup strategies

Source: src/src/app.module.ts, class NormalizerService.  An absent value
(undefined in JavaScript) is modelled by none at type Option Json. -/

/-- Decides whether a value has JavaScript type object and is not null. -/
def isContainer : Json → Bool
  | .arr _ => true
  | .obj _ => true
  | _ => false

/-- Model of NormalizerService.isEmpty, extended to undefined (none):
null, undefined, blank strings and empty arrays are empty. -/
def jsIsEmpty : Option Json → Bool
  | none => true
  | some .null => true
  | some (.str s) => (jsTrim s).length = 0
  | some (.arr items) => items.isEmpty
  | some _ => false

/-- Splits a dotted path with bracketed array indices into parts, as the
source does by rewriting index brackets to dots and splitting on dots.
All paths probed by the source index arrays with plain decimal numbers. -/
def pathParts (path : String) : List String :=
  (String.mk (path.data.filter (fun c => c ≠ ']') |>.map (fun c => if c = '[' then '.' else c))).splitOn "."

/-- JavaScript property access on an object entry list: the value under
the key, if present. -/
def objGet (entries : List (String × Json)) (k : String) : Option Json :=
  match entries.find? (fun e => e.1 = k) with
  | some e => some e.2
  | none => none

/-- JavaScript property access for one path part on a cursor value.
On arrays only canonical numeric strings denote elements. -/
def getStep (j : Json) (part : String) : Option Json :=
  match j with
  | .obj entries => objGet entries part
  | .arr items =>
    if part.data ≠ [] && part.data.all Char.isDigit && (part.data.head? = some '0' → part.data.length = 1) then
      items.get? (digitsToNat part.data)
    else none
  | _ => none

/-- Walks the parts of a path from a cursor, stopping with undefined on
null or non-object cursors as the source loop does. -/
def walkPath : Option Json → List String → Option Json
  | cur, [] => cur
  | cur, part :: rest =>
    match cur with
    | none => none
    | some j => if isContainer j then walkPath (getStep j part) rest else none

/-- Model of NormalizerService.getByPath. -/
def getByPath (payload : Json) (path : String) : Option Json :=
  if isContainer payload then walkPath (some payload) (pathParts path) else none

/-- Model of NormalizerService.pickFirst: the first path whose value is
not empty. -/
def pickFirst (payload : Json) : List String → Option Json
  | [] => none
  | path :: rest =>
    let v := getByPath payload path
    if jsIsEmpty v then pickFirst payload rest else v

/-- Scans the entries of one object for a wanted key with non-empty
value, in entry order, keys compared case-insensitively. -/
def scanEntries (wanted : List String) : List (String × Json) → Option Json
  | [] => none
  | (k, v) :: rest =>
    if wanted.contains (jsToLower k) && !jsIsEmpty (some v) then some v
    else scanEntries wanted rest

/-- Container-typed values of an entry list, the children enqueued by the
breadth-first search. -/
def objChildren : List (String × Json) → List Json
  | [] => []
  | (_, v) :: rest => if isContainer v then v :: objChildren rest else objChildren rest

/-- Breadth-first queue loop of NormalizerService.findByKeys.  The fuel
bounds the number of dequeues; every enqueued node is a distinct node of
the original payload, so jsonSize of the payload is enough fuel. -/
def bfsLoop (wanted : List String) : Nat → List Json → Option Json
  | 0, _ => none
  | _ + 1, [] => none
  | fuel + 1, node :: rest =>
    match node with
    | .arr items => bfsLoop wanted fuel (rest ++ items)
    | .obj entries =>
      (match scanEntries wanted entries with
       | some v => some v
       | none => bfsLoop wanted fuel (rest ++ objChildren entries))
    | _ => bfsLoop wanted fuel rest

/-- Model of NormalizerService.findByKeys: breadth-first, case-insensitive
key search returning the first non-empty match. -/
def findByKeys (payload : Json) (keys : List String) : Option Json :=
  if isContainer payload then bfsLoop (keys.map jsToLower) (jsonSize payload) [payload]
  else none

/-- The search fallback applied to a possibly undefined node, as when the
source runs findByKeys on an extracted error node. -/
def findByKeysOpt (payload : Option Json) (keys : List String) : Option Json :=
  match payload with
  | some j => findByKeys j keys
  | none => none

/-- Path probe with key-search fallback: pickFirst(paths) ?? findByKeys(keys). -/
def probe (payload : Json) (paths keys : List String) : Option Json :=
  match pickFirst payload paths with
  | some v => some v
  | none => findByKeys payload keys

/-- Model of NormalizerService.extractString: strings are trimmed and
blank results dropped, numbers and booleans are stringified, the rest is
null. -/
def extractString : Option Json → Option String
  | none => none
  | some .null => none
  | some (.str s) => if (jsTrim s).length > 0 then some (jsTrim s) else none
  | some (.num n) => some (toString n)
  | some (.bool b) => some (if b then "true" else "false")
  | some (.arr _) => none
  | some (.obj _) => none

/-! ## Dates and timestamps

JavaScript Date values are modelled as epoch milliseconds (Int); an
invalid Date is modelled by none.  The runtime is assumed to be in the
UTC zone, as the deployment is, so date-time strings without an explicit
offset denote UTC. -/

/-- The largest absolute time value a JavaScript Date accepts. -/
def maxDateMs : Int := 8640000000000000

/-- Decides whether an epoch value denotes a valid Date. -/
def msInRange (n : Int) : Bool := n.natAbs ≤ 8640000000000000

/-- A JavaScript number: either an integer or one of the non-finite
values (fractional values are outside the model). -/
inductive JsNumber where
  | finite (n : Int)
  | nan
  | posInf
  | negInf
deriving DecidableEq

/-- Model of NormalizerService.fromEpoch: values above 9999999999 are
epoch milliseconds, smaller ones epoch seconds; non-finite input and
out-of-range results give null. -/
def fromEpoch : JsNumber → Option Int
  | .finite n =>
    let ms := if n > 9999999999 then n else n * 1000
    if msInRange ms then some ms else none
  | _ => none

/-- Days from the civil epoch 1970-01-01 of a proleptic Gregorian date. -/
def daysFromCivil (y m d : Int) : Int :=
  let y2 := if m ≤ 2 then y - 1 else y
  let era := Int.fdiv y2 400
  let yoe := y2 - era * 400
  let mp := (m + 9) % 12
  let doy := (153 * mp + 2) / 5 + d - 1
  let doe := yoe * 365 + yoe / 4 - yoe / 100 + doy
  era * 146097 + doe - 719468

/-- Civil date of a day count from 1970-01-01: year, month, day. -/
def civilFromDays (z : Int) : Int × Int × Int :=
  let z2 := z + 719468
  let era := Int.fdiv z2 146097
  let doe := z2 - era * 146097
  let yoe := (doe - doe / 1460 + doe / 36524 - doe / 146096) / 365
  let y := yoe + era * 400
  let doy := doe - (365 * yoe + yoe / 4 - yoe / 100)
  let mp := (5 * doy + 2) / 153
  let d := doy - (153 * mp + 2) / 5 + 1
  let m := if mp < 10 then mp + 3 else mp - 9
  (if m ≤ 2 then y + 1 else y, m, d)

/-- Gregorian leap-year test. -/
def isLeapYear (y : Int) : Bool := (y % 4 = 0 && y % 100 ≠ 0) || y % 400 = 0

/-- Days in a month of a year. -/
def daysInMonth (y m : Int) : Int :=
  if m = 2 then (if isLeapYear y then 29 else 28)
  else if m = 4 || m = 6 || m = 9 || m = 11 then 30
  else 31

/-- Reads a fixed number of decimal digits. -/
def digitN : Nat → List Char → Option (Nat × List Char)
  | 0, cs => some (0, cs)
  | k + 1, c :: cs =>
    if c.isDigit then (digitN k cs).map (fun p => ((c.toNat - 48) * 10 ^ k + p.1, p.2)) else none
  | _ + 1, [] => none

/-- Parses the time-zone offset suffix of a date-time string: none for
no suffix, otherwise the offset in minutes. -/
def parseOffsetPart : List Char → Option (Option Int × List Char)
  | [] => some (none, [])
  | 'Z' :: rest => some (some 0, rest)
  | '+' :: rest =>
    (match digitN 2 rest with
     | some (hh, ':' :: r2) => (digitN 2 r2).map (fun p => (some (Int.ofNat (hh * 60 + p.1)), p.2))
     | some (hh, r2) => (digitN 2 r2).map (fun p => (some (Int.ofNat (hh * 60 + p.1)), p.2))
     | none => none)
  | '-' :: rest =>
    (match digitN 2 rest with
     | some (hh, ':' :: r2) => (digitN 2 r2).map (fun p => (some (-(Int.ofNat (hh * 60 + p.1))), p.2))
     | some (hh, r2) => (digitN 2 r2).map (fun p => (some (-(Int.ofNat (hh * 60 + p.1))), p.2))
     | none => none)
  | _ => none

/-- Parses the fraction-of-second part: up to three digits are kept, as
milliseconds. -/
def parseFracPart : List Char → Option (Nat × List Char)
  | '.' :: rest =>
    let p := takeDigits rest
    match p.1 with
    | [] => none
    | ds =>
      let kept := ds.take 3
      some (digitsToNat kept * 10 ^ (3 - kept.length), p.2)
  | cs => some (0, cs)

/-- Parses the time-of-day and offset of a date-time string, already past
the date separator. -/
def parseTimePart (cs : List Char) : Option (Int × List Char) :=
  match digitN 2 cs with
  | none => none
  | some (hh, rest) =>
    match rest with
    | ':' :: r2 =>
      match digitN 2 r2 with
      | none => none
      | some (mi, r3) =>
        let secPart : Option (Nat × Nat × List Char) :=
          match r3 with
          | ':' :: r4 =>
            (match digitN 2 r4 with
             | none => none
             | some (ss, r5) => (parseFracPart r5).map (fun p => (ss, p.1, p.2)))
          | _ => some (0, 0, r3)
        match secPart with
        | none => none
        | some (ss, ms, r6) =>
          if hh > 24 || mi > 59 || ss > 59 then none
          else if hh = 24 && (mi ≠ 0 || ss ≠ 0 || ms ≠ 0) then none
          else some ((hh * 3600 + mi * 60 + ss : Int) * 1000 + ms, r6)
    | _ => none

/-- Parses the date part of an interchange-format string: the year with
optional expanded sign, then optional month and day. -/
def parseDatePart (cs : List Char) : Option (Int × Int × Int × List Char) :=
  let yearPart : Option (Int × List Char) :=
    match cs with
    | '+' :: rest => (digitN 6 rest).map (fun p => (Int.ofNat p.1, p.2))
    | '-' :: rest => (digitN 6 rest).map (fun p => (-(Int.ofNat p.1), p.2))
    | _ => (digitN 4 cs).map (fun p => (Int.ofNat p.1, p.2))
  match yearPart with
  | none => none
  | some (y, rest) =>
    match rest with
    | '-' :: r2 =>
      (match digitN 2 r2 with
       | none => none
       | some (m, r3) =>
         match r3 with
         | '-' :: r4 =>
           (match digitN 2 r4 with
            | none => none
            | some (d, r5) => some (y, Int.ofNat m, Int.ofNat d, r5))
         | _ => some (y, Int.ofNat m, 1, r3))
    | _ => some (y, 1, 1, rest)

/-- Model of new Date(string) on the ECMA-262 date-time interchange
format; strings outside that format are unparseable and give an invalid
date.  Date-only forms and forms without an offset denote UTC under the
UTC-runtime assumption. -/
def jsDateParse (s : String) : Option Int :=
  match parseDatePart s.data with
  | none => none
  | some (y, m, d, rest) =>
    if m < 1 || m > 12 || d < 1 || d > daysInMonth y m then none
    else
      let timeAndOffset : Option (Int × Option Int × List Char) :=
        match rest with
        | 'T' :: r2 =>
          (match parseTimePart r2 with
           | none => none
           | some (t, r3) =>
             match parseOffsetPart r3 with
             | none => none
             | some (off, r4) => some (t, off, r4))
        | _ => some (0, none, rest)
      match timeAndOffset with
      | none => none
      | some (t, off, leftover) =>
        if leftover ≠ [] then none
        else
          let ms := daysFromCivil y m d * 86400000 + t - (off.getD 0) * 60000
          if msInRange ms then some ms else none

/-- Left-pads the decimal rendering of a number with zeros. -/
def padNum (width : Nat) (n : Nat) : String :=
  let s := toString n
  String.mk (List.replicate (width - s.length) '0') ++ s

/-- Model of Date.prototype.toISOString on a valid epoch value. -/
def toISOString (ms : Int) : String :=
  let days := Int.fdiv ms 86400000
  let rem := (ms - days * 86400000).toNat
  let c := civilFromDays days
  let y := c.1
  let yearStr :=
    if 0 ≤ y && y ≤ 9999 then padNum 4 y.toNat
    else if y < 0 then "-" ++ padNum 6 (-y).toNat
    else "+" ++ padNum 6 y.toNat
  yearStr ++ "-" ++ padNum 2 c.2.1.toNat ++ "-" ++ padNum 2 c.2.2.toNat ++
    "T" ++ padNum 2 (rem / 3600000) ++ ":" ++ padNum 2 (rem / 60000 % 60) ++
    ":" ++ padNum 2 (rem / 1000 % 60) ++ "." ++ padNum 3 (rem % 1000) ++ "Z"

/-- The runtime value given to parseTimestamp: null, undefined, a Date
(valid or not), a number, a string, or anything else. -/
inductive TsVal where
  | null
  | undef
  | date (ms : Option Int)
  | num (x : JsNumber)
  | str (s : String)
  | other
deriving DecidableEq

/-- Model of NormalizerService.parseTimestamp on runtime values. -/
def parseTimestampVal : TsVal → Option Int
  | .null => none
  | .undef => none
  | .date ms => ms
  | .num x => fromEpoch x
  | .str s =>
    let t := jsTrim s
    if t.length = 0 then none
    else if t.data ≠ [] && t.data.all Char.isDigit then fromEpoch (.finite (Int.ofNat (digitsToNat t.data)))
    else jsDateParse t
  | .other => none

/-- Model of NormalizerService.parseTimestamp on a probed JSON value. -/
def parseTimestampJson (v : Option Json) : Option Int :=
  match v with
  | none => parseTimestampVal .undef
  | some .null => parseTimestampVal .null
  | some (.num n) => parseTimestampVal (.num (.finite n))
  | some (.str s) => parseTimestampVal (.str s)
  | some (.bool _) => parseTimestampVal .other
  | some (.arr _) => parseTimestampVal .other
  | some (.obj _) => parseTimestampVal .other

/-! ## NormalizerService: token mapping and event extraction -/

/-- Event kinds stored in the raw event table. -/
inductive EventKind where
  | MESSAGE
  | TEMPLATE
  | USER
  | UNKNOWN
deriving DecidableEq, Repr

/-- Canonical rendering of an event kind, as interpolated into the
dedupe-key material. -/
def EventKind.asString : EventKind → String
  | .MESSAGE => "MESSAGE"
  | .TEMPLATE => "TEMPLATE"
  | .USER => "USER"
  | .UNKNOWN => "UNKNOWN"

/-- Message statuses recognized by the normalizer. -/
inductive MessageStatus where
  | accepted
  | sent
  | delivered
  | read
  | failed
deriving DecidableEq, Repr, Fintype

/-- Token stored for a message status. -/
def MessageStatus.asString : MessageStatus → String
  | .accepted => "accepted"
  | .sent => "sent"
  | .delivered => "delivered"
  | .read => "read"
  | .failed => "failed"

/-- Template statuses recognized by the normalizer. -/
inductive TemplateStatus where
  | APPROVED
  | REJECTED
  | PENDING
  | SUBMITTED
deriving DecidableEq, Repr

/-- Token stored for a template status. -/
def TemplateStatus.asString : TemplateStatus → String
  | .APPROVED => "APPROVED"
  | .REJECTED => "REJECTED"
  | .PENDING => "PENDING"
  | .SUBMITTED => "SUBMITTED"

/-- Consent events recognized by the normalizer. -/
inductive ConsentEvent where
  | OPT_IN
  | OPT_OUT
  | BLOCKED
deriving DecidableEq, Repr

/-- Token stored for a consent event. -/
def ConsentEvent.asString : ConsentEvent → String
  | .OPT_IN => "OPT_IN"
  | .OPT_OUT => "OPT_OUT"
  | .BLOCKED => "BLOCKED"

/-- Model of NormalizerService.mapMessageStatus. -/
def mapMessageStatus : Option String → Option MessageStatus
  | none => none
  | some v =>
    if v = "" then none
    else
      let n := jsToLower (jsTrim v)
      if n = "accepted" then some .accepted
      else if n = "sent" then some .sent
      else if n = "delivered" then some .delivered
      else if n = "read" then some .read
      else if n = "failed" || n = "error" || n = "undelivered" then some .failed
      else none

/-- Model of NormalizerService.mapTemplateStatus. -/
def mapTemplateStatus : Option String → Option TemplateStatus
  | none => none
  | some v =>
    if v = "" then none
    else
      let n := jsToUpper (jsTrim v)
      if n = "APPROVED" then some .APPROVED
      else if n = "REJECTED" then some .REJECTED
      else if n = "PENDING" then some .PENDING
      else if n = "SUBMITTED" || n = "IN_REVIEW" then some .SUBMITTED
      else none

/-- Model of NormalizerService.mapConsentEvent. -/
def mapConsentEvent : Option String → Option ConsentEvent
  | none => none
  | some v =>
    if v = "" then none
    else
      let n := jsToUpper (jsTrim v)
      if n = "OPT_IN" || n = "SUBSCRIBE" || n = "CONSENT_GRANTED" then some .OPT_IN
      else if n = "OPT_OUT" || n = "UNSUBSCRIBE" || n = "CONSENT_REVOKED" then some .OPT_OUT
      else if n = "BLOCKED" || n = "BLOCK" || n = "USER_BLOCKED" then some .BLOCKED
      else none

/-- Decides whether the second character list occurs inside the first,
starting at its head. -/
def listPrefixEq : List Char → List Char → Bool
  | [], _ => true
  | _ :: _, [] => false
  | a :: as, b :: bs => a = b && listPrefixEq as bs

/-- Decides whether a pattern occurs anywhere inside a character list. -/
def listHasSub (pat : List Char) : List Char → Bool
  | [] => pat.isEmpty
  | c :: rest => listPrefixEq pat (c :: rest) || listHasSub pat rest

/-- Model of String.prototype.includes. -/
def strIncludes (s pat : String) : Bool :=
  listHasSub pat.data s.data

/-- Model of NormalizerService.toRecord: non-objects give null, non-empty
arrays their first element, wrapped when it is not an object. -/
def toRecord : Option Json → Option Json
  | some (.obj entries) => some (.obj entries)
  | some (.arr []) => none
  | some (.arr (first :: _)) =>
    (match first with
     | .obj es => some (.obj es)
     | .arr is => some (.arr is)
     | other => some (.obj [("value", other)]))
  | _ => none

/-- Model of NormalizerService.normalizePhone: whitespace stripped, blank
results dropped. -/
def normalizePhone : Option String → Option String
  | none => none
  | some s =>
    if s = "" then none
    else
      let cleaned := String.mk (s.data.filter (fun c => !c.isWhitespace))
      if cleaned.length > 0 then some cleaned else none

/-- The normalized shape of a MESSAGE event. -/
structure NormalizedMessage where
  providerEventId : Option String
  messageId : Option String
  whatsappMessageId : Option String
  status : Option MessageStatus
  eventAt : Option Int
  errorCode : Option String
  errorReason : Option String
  errorPayload : Option Json

/-- The normalized shape of a TEMPLATE event. -/
structure NormalizedTemplate where
  providerEventId : Option String
  templateName : Option String
  templateProviderId : Option String
  templateStatus : Option TemplateStatus
  language : Option String
  rejectionReason : Option String
  correctCategory : Option String
  eventAt : Option Int

/-- The normalized shape of a USER event. -/
structure NormalizedUser where
  providerEventId : Option String
  phone : Option String
  consentEvent : Option ConsentEvent
  eventAt : Option Int

/-- The tagged union returned by NormalizerService.normalize. -/
inductive NormalizedEvent where
  | message (m : NormalizedMessage)
  | template (t : NormalizedTemplate)
  | user (u : NormalizedUser)
  | unknown (providerEventId : Option String) (eventAt : Option Int)

/-- The kind tag of a normalized event. -/
def NormalizedEvent.kind : NormalizedEvent → EventKind
  | .message _ => .MESSAGE
  | .template _ => .TEMPLATE
  | .user _ => .USER
  | .unknown _ _ => .UNKNOWN

/-- Model of NormalizerService.extractProviderEventId. -/
def extractProviderEventId (p : Json) : Option String :=
  extractString (probe p ["eventId", "event_id", "event.id", "gs_event_id"]
    ["eventId", "event_id", "gs_event_id"])

/-- The message id probed by normalizeMessage. -/
def probeMessageId (p : Json) : Option String :=
  extractString (probe p
    ["messages[0].id", "statuses[0].id", "message.id", "messageId", "message_id",
     "payload.messages[0].id", "payload.statuses[0].id", "data.messages[0].id",
     "data.statuses[0].id"]
    ["message_id", "messageId"])

/-- The WhatsApp message id probed by normalizeMessage. -/
def probeWhatsappMessageId (p : Json) : Option String :=
  extractString (probe p
    ["messages[0].whatsappMessageId", "messages[0].waMessageId",
     "statuses[0].whatsappMessageId", "statuses[0].waMessageId",
     "whatsapp_message_id", "whatsappMessageId", "wa_message_id", "waMessageId"]
    ["whatsapp_message_id", "whatsappMessageId", "waMessageId", "wa_id"])

/-- The message status probed by normalizeMessage. -/
def probeMessageStatus (p : Json) : Option MessageStatus :=
  mapMessageStatus (extractString (probe p
    ["statuses[0].status", "status", "eventStatus", "event_status",
     "message.status", "messages[0].status", "data.status"]
    ["status", "eventStatus", "event_status"]))

/-- The template-name hint probed by normalizeMessage. -/
def probeTemplateHint (p : Json) : Option String :=
  extractString (probe p
    ["template.name", "templateName", "template_name", "elementName"]
    ["template_name", "templateName", "elementName"])

/-- Model of NormalizerService.normalizeMessage. -/
def normalizeMessage (p : Json) : Option NormalizedMessage :=
  let messageId := probeMessageId p
  let whatsappMessageId := probeWhatsappMessageId p
  let status := probeMessageStatus p
  let templateHint := probeTemplateHint p
  if messageId.isNone && whatsappMessageId.isNone && templateHint.isSome then none
  else if messageId.isNone && whatsappMessageId.isNone && status.isNone then none
  else
    let errorsNode :=
      match probe p ["statuses[0].errors[0]", "messages[0].errors[0]", "error", "errors[0]"]
        ["error", "errors"] with
      | some v => some v
      | none => none
    let errorObject := toRecord errorsNode
    let errorCode := extractString
      (match pickFirst p
        ["statuses[0].errors[0].code", "messages[0].errors[0].code", "errorCode", "error_code"] with
       | some v => some v
       | none => findByKeysOpt errorsNode ["code", "errorCode", "error_code"])
    let errorReason := extractString
      (match pickFirst p
        ["statuses[0].errors[0].message", "messages[0].errors[0].message", "reason",
         "errorReason", "error_reason"] with
       | some v => some v
       | none => findByKeysOpt errorsNode ["message", "reason", "errorReason", "error_reason"])
    some
      { providerEventId := extractProviderEventId p
        messageId := messageId
        whatsappMessageId := whatsappMessageId
        status := status
        eventAt := parseTimestampJson (probe p
          ["statuses[0].timestamp", "messages[0].timestamp", "timestamp", "time",
           "eventTime", "event_ts"]
          ["timestamp", "eventTime", "event_ts"])
        errorCode := errorCode
        errorReason := errorReason
        errorPayload := errorObject }

/-- The template status probed by normalizeTemplate. -/
def probeTemplateStatus (p : Json) : Option TemplateStatus :=
  mapTemplateStatus (extractString (probe p
    ["template.status", "status", "eventStatus", "event_status", "templateStatus",
     "approvalStatus"]
    ["templateStatus", "approvalStatus", "status", "event_status"]))

/-- The template name probed by normalizeTemplate. -/
def probeTemplateName (p : Json) : Option String :=
  extractString (probe p
    ["template.name", "template_name", "templateName", "elementName", "name",
     "payload.template_name"]
    ["template_name", "templateName", "elementName"])

/-- The provider template id probed by normalizeTemplate. -/
def probeTemplateProviderId (p : Json) : Option String :=
  extractString (probe p
    ["template.id", "template_provider_id", "templateProviderId", "providerTemplateId"]
    ["template_provider_id", "templateProviderId", "providerTemplateId"])

/-- The lowercased top-level event-type hint probed by normalizeTemplate. -/
def probeEventTypeHint (p : Json) : Option String :=
  (extractString (pickFirst p ["event", "eventType", "type"])).map jsToLower

/-- Model of NormalizerService.normalizeTemplate. -/
def normalizeTemplate (p : Json) : Option NormalizedTemplate :=
  let templateStatus := probeTemplateStatus p
  let templateName := probeTemplateName p
  let templateProviderId := probeTemplateProviderId p
  if !(templateStatus.isSome || templateName.isSome || templateProviderId.isSome) then none
  else
    let eventTypeHint := probeEventTypeHint p
    if templateStatus.isNone && !(match eventTypeHint with
        | some h => strIncludes h "template"
        | none => false) then none
    else
      some
        { providerEventId := extractProviderEventId p
          templateName := templateName
          templateProviderId := templateProviderId
          templateStatus := templateStatus
          language := extractString (probe p ["template.language", "language", "lang"]
            ["language", "lang"])
          rejectionReason := extractString (probe p
            ["template.rejectionReason", "rejectionReason", "rejection_reason", "reason"]
            ["rejectionReason", "rejection_reason", "reason"])
          correctCategory := extractString (probe p
            ["template.correctCategory", "correctCategory", "correct_category"]
            ["correctCategory", "correct_category"])
          eventAt := parseTimestampJson (probe p ["timestamp", "time", "eventTime", "event_ts"]
            ["timestamp", "eventTime", "event_ts"]) }

/-- The consent token probed by normalizeUser. -/
def probeConsentEvent (p : Json) : Option ConsentEvent :=
  mapConsentEvent (extractString (probe p ["event", "eventType", "status", "consent", "opt"]
    ["event", "eventType", "consent", "opt", "status"]))

/-- The phone probed by normalizeUser. -/
def probeUserPhone (p : Json) : Option String :=
  extractString (probe p
    ["phone", "phone_number", "msisdn", "user.phone", "user.phone_number",
     "payload.phone", "payload.msisdn", "data.phone"]
    ["phone", "phone_number", "msisdn"])

/-- Model of NormalizerService.normalizeUser. -/
def normalizeUser (p : Json) : Option NormalizedUser :=
  let consentEvent := probeConsentEvent p
  let phone := probeUserPhone p
  if consentEvent.isNone && phone.isNone then none
  else
    some
      { providerEventId := extractProviderEventId p
        phone := normalizePhone phone
        consentEvent := consentEvent
        eventAt := parseTimestampJson (probe p ["timestamp", "time", "eventTime", "event_ts"]
          ["timestamp", "eventTime", "event_ts"]) }

/-- Model of NormalizerService.normalize: template, then message, then
user, then the unknown fallback. -/
def normalize (p : Json) : NormalizedEvent :=
  match normalizeTemplate p with
  | some t => .template t
  | none =>
    match normalizeMessage p with
    | some m => .message m
    | none =>
      match normalizeUser p with
      | some u => .user u
      | none =>
        .unknown (extractProviderEventId p)
          (parseTimestampJson (pickFirst p ["timestamp", "time", "eventTime", "event_ts"]))

/-! ## WebhookService: ingest path

Source: src/src/webhook/webhook.service.ts (WebhookService) and
src/src/repos/raw.repo.ts (RawRepo).  The raw event table is a list of
rows; the wall clock is an explicit parameter. -/

/-- Provider event id of a normalized event. -/
def NormalizedEvent.providerEventId : NormalizedEvent → Option String
  | .message m => m.providerEventId
  | .template t => t.providerEventId
  | .user u => u.providerEventId
  | .unknown pid _ => pid

/-- Event timestamp of a normalized event. -/
def NormalizedEvent.eventAt : NormalizedEvent → Option Int
  | .message m => m.eventAt
  | .template t => t.eventAt
  | .user u => u.eventAt
  | .unknown _ at_ => at_

/-- Model of WebhookService.pickEventStatus. -/
def pickEventStatus : NormalizedEvent → Option String
  | .message m => m.status.map MessageStatus.asString
  | .template t => t.templateStatus.map TemplateStatus.asString
  | .user u => u.consentEvent.map ConsentEvent.asString
  | .unknown _ _ => none

/-- Model of WebhookService.pickMessageId. -/
def pickMessageId : NormalizedEvent → Option String
  | .message m => m.messageId
  | _ => none

/-- Model of WebhookService.pickWhatsappMessageId. -/
def pickWhatsappMessageId : NormalizedEvent → Option String
  | .message m => m.whatsappMessageId
  | _ => none

/-- Model of WebhookService.pickTemplateName. -/
def pickTemplateName : NormalizedEvent → Option String
  | .template t => t.templateName
  | _ => none

/-- Model of WebhookService.pickTemplateProviderId. -/
def pickTemplateProviderId : NormalizedEvent → Option String
  | .template t => t.templateProviderId
  | _ => none

/-- JavaScript truthiness of a nullable string. -/
def jsTruthyStr : Option String → Bool
  | some s => s ≠ ""
  | none => false

/-- The material hashed by WebhookService.buildDedupeKey. -/
def dedupeMaterial (appId : String) (normalized : NormalizedEvent) (rawBody : String) : String :=
  let providerEventId := normalized.providerEventId
  let eventKind := normalized.kind
  if jsTruthyStr providerEventId then
    appId ++ "|" ++ eventKind.asString ++ "|" ++ providerEventId.getD ""
  else
    let messageId := pickMessageId normalized
    let eventStatus := pickEventStatus normalized
    let timestamp := match normalized.eventAt with
      | some t => toISOString t
      | none => ""
    if jsTruthyStr messageId || jsTruthyStr eventStatus || timestamp ≠ "" then
      appId ++ "|" ++ eventKind.asString ++ "|" ++ messageId.getD "" ++ "|" ++
        eventStatus.getD "" ++ "|" ++ timestamp
    else rawBody

/-- Model of WebhookService.buildDedupeKey. -/
def buildDedupeKey (appId : String) (normalized : NormalizedEvent) (rawBody : String) : String :=
  sha256hex (dedupeMaterial appId normalized rawBody)

/-- Payload formats distinguished by WebhookService.parseRawBody. -/
inductive PayloadFormat where
  | json
  | text
  | empty
deriving DecidableEq, Repr

/-- Result of WebhookService.parseRawBody. -/
structure ParsedBody where
  normalizedPayload : Json
  payloadJson : Json
  format : PayloadFormat

/-- Model of WebhookService.parseRawBody: blank bodies become an empty
payload, unparseable bodies a wrapped raw text. -/
def parseRawBody (rawBody : String) : ParsedBody :=
  if (jsTrim rawBody).length = 0 then
    { normalizedPayload := .obj []
      payloadJson := .obj [("_raw", .str rawBody), ("_empty", .bool true)]
      format := .empty }
  else
    match jsonParse rawBody with
    | some parsed => { normalizedPayload := parsed, payloadJson := parsed, format := .json }
    | none =>
      { normalizedPayload := .obj [("_raw", .str rawBody)]
        payloadJson := .obj [("_raw", .str rawBody), ("_format", .str "text/plain")]
        format := .text }

/-- A row of the wpp_webhook_event_raw table. -/
structure RawRow where
  id : Nat
  appId : String
  eventKind : EventKind
  providerEventId : Option String
  messageId : Option String
  whatsappMessageId : Option String
  templateName : Option String
  templateProviderId : Option String
  eventStatus : Option String
  receivedAt : Int
  payloadJson : Json
  processed : Bool
  attempts : Nat
  lastError : Option String
  processedAt : Option Int
  dedupeKey : String

/-- Insert input of RawRepo.insertRawEvent. -/
structure RawInsertInput where
  appId : String
  eventKind : EventKind
  providerEventId : Option String
  messageId : Option String
  whatsappMessageId : Option String
  templateName : Option String
  templateProviderId : Option String
  eventStatus : Option String
  payloadJson : Json
  dedupeKey : String

/-- Model of RawRepo.insertRawEvent.  The INSERT carries ON DUPLICATE KEY
UPDATE id = id, so a row whose unique dedupe_key already exists leaves
the table unchanged with zero affected rows and raises no error; the
repo reports inserted iff exactly one row was affected. -/
def insertRawEvent (rows : List RawRow) (input : RawInsertInput) (now : Int) :
    Bool × List RawRow :=
  if rows.any (fun r => r.dedupeKey = input.dedupeKey) then (false, rows)
  else
    (true, rows ++
      [{ id := rows.length
         appId := input.appId
         eventKind := input.eventKind
         providerEventId := input.providerEventId
         messageId := input.messageId
         whatsappMessageId := input.whatsappMessageId
         templateName := input.templateName
         templateProviderId := input.templateProviderId
         eventStatus := input.eventStatus
         receivedAt := now
         payloadJson := input.payloadJson
         processed := false
         attempts := 0
         lastError := none
         processedAt := none
         dedupeKey := input.dedupeKey }])

/-- Acknowledgement of one ingest call; ok corresponds to the HTTP 200
body the controller sends when ingest returns without error. -/
structure IngestResult where
  ok : Bool
  inserted : Bool
  dedupeKey : String
  eventKind : EventKind
  format : PayloadFormat

/-- Model of WebhookService.ingest: parse, normalize, build the dedupe
key, insert into the raw store, and acknowledge. -/
def ingest (appId rawBody : String) (rows : List RawRow) (now : Int) :
    IngestResult × List RawRow :=
  let parsed := parseRawBody rawBody
  let normalized := normalize parsed.normalizedPayload
  let dedupeKey := buildDedupeKey appId normalized rawBody
  let p := insertRawEvent rows
    { appId := appId
      eventKind := normalized.kind
      providerEventId := normalized.providerEventId
      messageId := pickMessageId normalized
      whatsappMessageId := pickWhatsappMessageId normalized
      templateName := pickTemplateName normalized
      templateProviderId := pickTemplateProviderId normalized
      eventStatus := pickEventStatus normalized
      payloadJson := parsed.payloadJson
      dedupeKey := dedupeKey } now
  ({ ok := true
     inserted := p.1
     dedupeKey := dedupeKey
     eventKind := normalized.kind
     format := parsed.format }, p.2)

/-! ## RecipientRepo: message projection

Source: src/src/repos/recipient.repo.ts. -/

/-- Statuses of a campaign recipient. -/
inductive RecipientStatus where
  | PENDING
  | SKIPPED
  | SUBMITTED
  | SENT
  | DELIVERED
  | READ
  | FAILED
  | RETRYING
deriving DecidableEq, Repr, Fintype

/-- The STATUS_RANK table of the recipient repo. -/
def STATUS_RANK : RecipientStatus → Nat
  | .PENDING => 0
  | .SKIPPED => 0
  | .SUBMITTED => 1
  | .RETRYING => 1
  | .SENT => 2
  | .DELIVERED => 3
  | .READ => 4
  | .FAILED => 5

/-- The TARGET_STATUS_BY_MESSAGE_EVENT table of the recipient repo. -/
def TARGET_STATUS_BY_MESSAGE_EVENT : MessageStatus → RecipientStatus
  | .accepted => .SUBMITTED
  | .sent => .SENT
  | .delivered => .DELIVERED
  | .read => .READ
  | .failed => .FAILED

/-- Transition decisions of RecipientRepo.evaluateTransition. -/
inductive Transition where
  | UPGRADE
  | SAME
  | IGNORE
deriving DecidableEq, Repr

/-- Model of RecipientRepo.evaluateTransition. -/
def evaluateTransition (current target : RecipientStatus) (sourceStatus : MessageStatus) :
    Transition :=
  if sourceStatus = .failed then
    if current = .READ then .IGNORE
    else if current = .FAILED then .SAME
    else .UPGRADE
  else if current = .FAILED then .IGNORE
  else if STATUS_RANK current < STATUS_RANK target then .UPGRADE
  else if STATUS_RANK target = STATUS_RANK current && target = current then .SAME
  else .IGNORE

/-- The nextStatus expression of applyMessageEvent: the status value to
write, or none when the status column is left alone. -/
def nextStatusOpt (transition : Transition) (sourceStatus : MessageStatus)
    (current target : RecipientStatus) : Option RecipientStatus :=
  if transition = .UPGRADE || (sourceStatus = .failed && current ≠ .FAILED) then some target
  else none

/-- A row of the wpp_campaign_recipient table, the columns the projection
reads and writes. -/
structure RecipientRow where
  id : Nat
  status : RecipientStatus
  gupshupMessageId : Option String
  whatsappMessageId : Option String
  acceptedAt : Option Int
  sentAt : Option Int
  reachedAt : Option Int
  failedAt : Option Int
  lastEventAt : Option Int
  lastErrorCode : Option String
  lastErrorReason : Option String
  errorJson : Option Json
  updatedAt : Int

/-- Model of RecipientRepo.shouldSetLastEventAt. -/
def shouldSetLastEventAt (current : Option Int) (candidate : Int) : Bool :=
  match current with
  | none => true
  | some cur => candidate > cur

/-- Model of RecipientRepo.findRecipient: lookup by gupshup id first,
then by whatsapp id. -/
def findRecipient (table : List RecipientRow) (messageId whatsappMessageId : Option String) :
    Option RecipientRow :=
  match (if jsTruthyStr messageId then table.find? (fun r => r.gupshupMessageId = messageId)
         else none) with
  | some r => some r
  | none =>
    if jsTruthyStr whatsappMessageId then
      table.find? (fun r => r.whatsappMessageId = whatsappMessageId)
    else none

/-- Outcomes of RecipientRepo.applyMessageEvent. -/
inductive ApplyOutcome where
  | UPDATED
  | NOOP
  | NOT_FOUND
deriving DecidableEq, Repr

/-- The updated recipient row written by applyMessageEvent once a
transition other than IGNORE was decided, given the incoming status. -/
def recipientWrites (recipient : RecipientRow) (event : NormalizedMessage)
    (st : MessageStatus) (eventAt now : Int) : Bool × RecipientRow :=
  let target := TARGET_STATUS_BY_MESSAGE_EVENT st
  let transition := evaluateTransition recipient.status target st
  let nextStatus := nextStatusOpt transition st recipient.status target
  let statusWrite := match nextStatus with
    | some ns => ns ≠ recipient.status
    | none => false
  let waWrite := !jsTruthyStr recipient.whatsappMessageId && jsTruthyStr event.whatsappMessageId
  let lastEventWrite := transition = .UPGRADE && shouldSetLastEventAt recipient.lastEventAt eventAt
  let acceptedWrite := st = .accepted && recipient.acceptedAt.isNone
  let sentWrite := st = .sent && recipient.sentAt.isNone
  let reachedWrite := (st = .delivered || st = .read) && recipient.reachedAt.isNone
  let failedBlock := st = .failed && recipient.status ≠ .READ
  let failedAtWrite := failedBlock && recipient.failedAt.isNone
  let errCodeWrite := failedBlock && jsTruthyStr event.errorCode
  let errReasonWrite := failedBlock && jsTruthyStr event.errorReason
  let errPayloadWrite := failedBlock && event.errorPayload.isSome
  let anyWrite := statusWrite || waWrite || lastEventWrite || acceptedWrite || sentWrite ||
    reachedWrite || failedAtWrite || errCodeWrite || errReasonWrite || errPayloadWrite
  (anyWrite,
   { recipient with
     status := if statusWrite then target else recipient.status
     whatsappMessageId := if waWrite then event.whatsappMessageId else recipient.whatsappMessageId
     lastEventAt := if lastEventWrite then some eventAt else recipient.lastEventAt
     acceptedAt := if acceptedWrite then some eventAt else recipient.acceptedAt
     sentAt := if sentWrite then some eventAt else recipient.sentAt
     reachedAt := if reachedWrite then some eventAt else recipient.reachedAt
     failedAt := if failedAtWrite then some eventAt else recipient.failedAt
     lastErrorCode := if errCodeWrite then event.errorCode else recipient.lastErrorCode
     lastErrorReason := if errReasonWrite then event.errorReason else recipient.lastErrorReason
     errorJson := if errPayloadWrite then event.errorPayload else recipient.errorJson
     updatedAt := now })

/-- Model of RecipientRepo.applyMessageEvent on a recipient table. -/
def applyMessageEvent (table : List RecipientRow) (event : NormalizedMessage) (now : Int) :
    ApplyOutcome × List RecipientRow :=
  if !jsTruthyStr event.messageId && !jsTruthyStr event.whatsappMessageId then (.NOT_FOUND, table)
  else
    match findRecipient table event.messageId event.whatsappMessageId with
    | none => (.NOT_FOUND, table)
    | some recipient =>
      match event.status with
      | none => (.NOOP, table)
      | some st =>
        let eventAt := event.eventAt.getD now
        let target := TARGET_STATUS_BY_MESSAGE_EVENT st
        if evaluateTransition recipient.status target st = .IGNORE then (.NOOP, table)
        else
          let w := recipientWrites recipient event st eventAt now
          if !w.1 then (.NOOP, table)
          else (.UPDATED, table.map (fun r => if r.id = recipient.id then w.2 else r))

/-- The recipient status stored after one applied message event, as a
function of the current status and the incoming status alone. -/
def appliedStatus (current : RecipientStatus) (st : MessageStatus) : RecipientStatus :=
  let target := TARGET_STATUS_BY_MESSAGE_EVENT st
  let transition := evaluateTransition current target st
  if transition = .IGNORE then current
  else
    match nextStatusOpt transition st current target with
    | some ns => ns
    | none => current

/-! ## Worker retry accounting

Source: src/unnamed/part_003 (WorkerService.processSingleRow) and
src/unnamed/part_001 (RawRepo.markProcessed, RawRepo.markFailedAttempt). -/

/-- The hard-coded maxAttempts of AppConfigService.worker. -/
def maxAttemptsDefault : Nat := 10

/-- Model of RawRepo.trimError: empty messages become null, long ones are
cut to 252 characters plus an ellipsis. -/
def trimError : Option String → Option String
  | none => none
  | some m =>
    if m = "" then none
    else if m.length ≤ 255 then some m
    else some (String.mk (m.data.take 252) ++ "...")

/-- Model of RawRepo.markProcessed on one row: terminal with a note. -/
def markProcessedRow (r : RawRow) (lastError : Option String) (now : Int) : RawRow :=
  { r with processed := true, processedAt := some now, lastError := trimError lastError }

/-- Model of RawRepo.markFailedAttempt on one row. -/
def markFailedAttemptRow (r : RawRow) (attempts : Nat) (errorMessage : String)
    (finalize : Bool) (now : Int) : RawRow :=
  if finalize then
    { r with processed := true, processedAt := some now, attempts := attempts
             lastError := trimError (some errorMessage) }
  else
    { r with processed := false, attempts := attempts, lastError := trimError (some errorMessage) }

/-- Model of the catch branch of WorkerService.processSingleRow: bump the
attempt counter and finalize beyond maxAttempts. -/
def workerFailStep (r : RawRow) (reason : String) (maxAttempts : Nat) (now : Int) : RawRow :=
  let attempts := r.attempts + 1
  markFailedAttemptRow r attempts reason (decide (attempts > maxAttempts)) now

/-- The raw-row states reachable through the repo operations: a freshly
inserted row, then projection successes and failures. -/
inductive RawRowReachable : RawRow → Prop
  | inserted (r : RawRow) (hp : r.processed = false) (ha : r.attempts = 0)
      (hpa : r.processedAt = none) : RawRowReachable r
  | failed (r : RawRow) (reason : String) (now : Int) (h : RawRowReachable r) :
      RawRowReachable (workerFailStep r reason maxAttemptsDefault now)
  | succeeded (r : RawRow) (lastError : Option String) (now : Int) (h : RawRowReachable r) :
      RawRowReachable (markProcessedRow r lastError now)

/-- Iterated failure steps from a row. -/
def iterFail (reason : String) (now : Int) : Nat → RawRow → RawRow
  | 0, r => r
  | n + 1, r => iterFail reason now n (workerFailStep r reason maxAttemptsDefault now)

/-! ## ConsentRepo: marketing consent aggregate

Source: src/src/repos/consent.repo.ts. -/

/-- Consent event types stored by the projection. -/
inductive ConsentType where
  | OPT_IN
  | OPT_OUT
deriving DecidableEq, Repr

/-- Status values of the marketing-consent aggregate. -/
inductive CurrentStatus where
  | UNKNOWN
  | OPT_IN
  | OPT_OUT
deriving DecidableEq, Repr

/-- A row of whatsapp_marketing_current. -/
structure MarketingCurrentRow where
  userId : Nat
  companyId : Nat
  status : CurrentStatus
  lastOptInAt : Option Int
  lastOptOutAt : Option Int
  updatedAt : Int

/-- Model of ConsentRepo.maxDate. -/
def maxDate (existing : Option Int) (candidate : Int) : Int :=
  match existing with
  | none => candidate
  | some e => if e ≥ candidate then e else candidate

/-- Model of ConsentRepo.computeStatus. -/
def computeStatus (lastOptIn lastOptOut : Option Int) : CurrentStatus :=
  match lastOptIn, lastOptOut with
  | some i, some o => if i ≥ o then .OPT_IN else .OPT_OUT
  | some _, none => .OPT_IN
  | none, some _ => .OPT_OUT
  | none, none => .UNKNOWN

/-- Model of ConsentRepo.upsertMarketingCurrent: the row stored under the
aggregate key after the call, whether inserted or updated. -/
def upsertMarketingCurrent (current : Option MarketingCurrentRow) (userId companyId : Nat)
    (eventType : ConsentType) (eventAt : Int) (now : Int) : MarketingCurrentRow :=
  let nextLastOptIn :=
    if eventType = .OPT_IN then some (maxDate (current.bind (·.lastOptInAt)) eventAt)
    else current.bind (·.lastOptInAt)
  let nextLastOptOut :=
    if eventType = .OPT_OUT then some (maxDate (current.bind (·.lastOptOutAt)) eventAt)
    else current.bind (·.lastOptOutAt)
  { userId := userId
    companyId := companyId
    status := computeStatus nextLastOptIn nextLastOptOut
    lastOptInAt := nextLastOptIn
    lastOptOutAt := nextLastOptOut
    updatedAt := now }

/-! ## RawRepo.lockNextBatch: skip-locked batch claim

Source: src/unnamed/part_001.  The SELECT takes pending rows in
received_at order with FOR UPDATE SKIP LOCKED: rows already locked by
another open transaction are skipped, the returned ones become locked by
the calling transaction until it closes. -/

/-- A raw row as seen by the lock model: its id, arrival order, processed
flag, and the transaction currently holding its lock. -/
structure LockableRow where
  rid : Nat
  receivedAt : Int
  processed : Bool
  lockedBy : Option Nat
deriving DecidableEq, Repr

/-- Insertion into a list ordered by receivedAt. -/
def insertByReceived (r : LockableRow) : List LockableRow → List LockableRow
  | [] => [r]
  | x :: xs => if r.receivedAt < x.receivedAt then r :: x :: xs else x :: insertByReceived r xs

/-- Sorting by receivedAt, the ORDER BY of the claim query. -/
def sortByReceived (l : List LockableRow) : List LockableRow :=
  l.foldr insertByReceived []

/-- Model of RawRepo.lockNextBatch for a transaction: the selected rows
and the table with their locks taken. -/
def lockNextBatch (tx : Nat) (batchSize : Nat) (db : List LockableRow) :
    List LockableRow × List LockableRow :=
  let selected :=
    (sortByReceived (db.filter (fun r => !r.processed && r.lockedBy = none))).take batchSize
  (selected,
   db.map (fun r => if selected.any (fun s => s.rid = r.rid) then { r with lockedBy := some tx }
                    else r))

/-! ## Log sanitizer

Source: src/src/logging/log-sanitizer.util.ts.  Log metadata values are
modelled by LogVal; object identity does not exist on trees, so the
cycle guard of the source never fires in the model. -/

/-- A JavaScript value reaching the log sanitizer. -/
inductive LogVal where
  | vnull
  | vundef
  | vbool (b : Bool)
  | vnum (n : Int)
  | vstr (s : String)
  | vdate (ms : Option Int)
  | varr (items : List LogVal)
  | vobj (entries : List (String × LogVal))

/-- Model of the SENSITIVE_KEY_PATTERN test: a case-insensitive substring
match of any listed credential word. -/
def sensitiveKeyPat (k : String) : Bool :=
  let l := jsToLower k
  strIncludes l "secret" || strIncludes l "token" || strIncludes l "password" ||
    strIncludes l "authorization" || strIncludes l "auth" || strIncludes l "cipher" ||
    strIncludes l "signature" || strIncludes l "apikey" || strIncludes l "api_key" ||
    strIncludes l "api-key" || strIncludes l "bearer"

/-- Model of the PHONE_KEY_PATTERN test. -/
def phoneKeyPat (k : String) : Bool :=
  let l := jsToLower k
  strIncludes l "phone" || strIncludes l "msisdn" || strIncludes l "waid" ||
    strIncludes l "wa_id" || strIncludes l "wa-id" || strIncludes l "whatsapp"

/-- Characters the phone shape allows after the optional leading plus. -/
def phoneChar (c : Char) : Bool :=
  c.isDigit || c.isWhitespace || c = '(' || c = ')' || c = '.' || c = '-'

/-- The anchored phone regex shape: an optional leading plus, then at
least one digit or separator character. -/
def phoneShape : List Char → Bool
  | [] => false
  | c :: rest =>
    if c = '+' then !rest.isEmpty && rest.all phoneChar
    else (c :: rest).all phoneChar

/-- Model of looksLikePhone: the trimmed string is an optional plus then
digits and separators, and the digit count is between 8 and 15. -/
def looksLikePhone (s : String) : Bool :=
  let digits := (s.data.filter Char.isDigit).length
  phoneShape (jsTrim s).data && 8 ≤ digits && digits ≤ 15

/-- Model of maskPhone: three stars and the last four characters. -/
def maskPhone (phone : Option String) : String :=
  match phone with
  | none => "null"
  | some p =>
    if p = "" then "null"
    else
      let t := jsTrim p
      if t.length ≤ 4 then "***" ++ t
      else "***" ++ String.mk (t.data.drop (t.length - 4))

/-- Model of sanitizeString: phone-like hints and values are masked, long
strings truncated with a marker. -/
def sanitizeString (value : String) (maxLength : Nat) (keyHint : Option String) : String :=
  if (match keyHint with
      | some k => k ≠ "" && phoneKeyPat k
      | none => false) then maskPhone (some value)
  else if looksLikePhone value then maskPhone (some value)
  else if value.length ≤ maxLength then value
  else String.mk (value.data.take maxLength) ++ "...[truncated:" ++
    toString (value.length - maxLength) ++ "]"

/-- Model of sanitizeValue.  The fuel is the remaining depth before the
depth cap; containers recurse with one unit less, matching the depth
parameter of the source against its maxDepth of 4. -/
def sanitizeVal (maxLen : Nat) : Nat → Option String → LogVal → LogVal
  | _, _, .vnull => .vnull
  | _, _, .vundef => .vundef
  | _, keyHint, .vstr s => .vstr (sanitizeString s maxLen keyHint)
  | _, _, .vnum n => .vnum n
  | _, _, .vbool b => .vbool b
  | _, _, .vdate ms =>
    (match ms with
     | none => .vnull
     | some m => .vstr (toISOString m))
  | 0, _, .varr items => .vstr ("[Array(" ++ toString items.length ++ ")]")
  | 0, _, .vobj _ => .vstr "[Object]"
  | fuel + 1, keyHint, .varr items =>
    let kept := (items.take 20).map (fun it => sanitizeVal maxLen fuel keyHint it)
    .varr (if items.length > 20 then
             kept ++ [.vstr ("[+" ++ toString (items.length - 20) ++ " items]")]
           else kept)
  | fuel + 1, _, .vobj entries =>
    let out := (entries.take 40).map (fun e =>
      if sensitiveKeyPat e.1 then (e.1, LogVal.vstr "[REDACTED]")
      else
        match e.2 with
        | .vstr s =>
          if phoneKeyPat e.1 then (e.1, LogVal.vstr (maskPhone (some s)))
          else (e.1, sanitizeVal maxLen fuel (some e.1) (.vstr s))
        | v => (e.1, sanitizeVal maxLen fuel (some e.1) v))
    .vobj (if entries.length > 40 then out ++ [("__truncated_keys", .vnum (entries.length - 40))]
           else out)

/-- Model of sanitizeForLog: default options, depth cap 4, string cap 400. -/
def sanitizeForLog (v : LogVal) : LogVal :=
  sanitizeVal 400 4 none v

/-! ## TemplateRepo and the worker template projection

Source: src/src/repos/template.repo.ts, src/src/repos/integration.repo.ts
and src/unnamed/part_003 (WorkerService.processTemplateEvent). -/

/-- Statuses of the template tables. -/
inductive TemplateDbStatus where
  | DRAFT
  | SUBMITTED
  | PENDING
  | APPROVED
  | REJECTED
deriving DecidableEq, Repr

/-- The table value written for a normalized template status. -/
def TemplateStatus.toDb : TemplateStatus → TemplateDbStatus
  | .APPROVED => .APPROVED
  | .REJECTED => .REJECTED
  | .PENDING => .PENDING
  | .SUBMITTED => .SUBMITTED

/-- A row of wpp_company_integration. -/
structure IntegrationMapping where
  id : Nat
  companyId : Nat
  gupshupAppId : String
  isActive : Bool

/-- Model of IntegrationRepo.findActiveByAppId. -/
def findActiveByAppId (integrations : List IntegrationMapping) (appId : String) :
    Option IntegrationMapping :=
  integrations.find? (fun i => i.gupshupAppId = appId && i.isActive)

/-- A row of wpp_template. -/
structure TemplateTableRow where
  id : Nat
  companyId : Nat
  integrationId : Nat
  providerTemplateId : Option String
  name : String
  language : Option String
  status : TemplateDbStatus
  rejectionReason : Option String
  correctCategory : Option String
  lastSyncedAt : Option Int
  updatedAt : Option Int

/-- A row of wpp_template_version. -/
structure TemplateVersionRow where
  id : Nat
  templateId : Nat
  versionNo : Nat
  status : TemplateDbStatus
  submittedAt : Option Int
  approvedAt : Option Int
  rejectedAt : Option Int
  rejectionReason : Option String
  updatedAt : Option Int

/-- Model of TemplateRepo.findTemplateByProviderId. -/
def findTemplateByProviderId (templates : List TemplateTableRow) (integrationId : Nat)
    (providerTemplateId : String) : Option TemplateTableRow :=
  templates.find? (fun t =>
    t.integrationId = integrationId && t.providerTemplateId = some providerTemplateId)

/-- Model of TemplateRepo.findTemplateByName: company and name match,
language only when given, highest id first. -/
def findTemplateByName (templates : List TemplateTableRow) (companyId : Nat)
    (templateName : String) (language : Option String) : Option TemplateTableRow :=
  let found := templates.filter (fun t =>
    t.companyId = companyId && t.name = templateName &&
      (match language with
       | some lang => t.language = some lang
       | none => true))
  found.foldl (fun best t =>
    match best with
    | none => some t
    | some b => if t.id > b.id then some t else some b) none

/-- Model of TemplateRepo.updateTemplateStatus. -/
def updateTemplateStatus (templates : List TemplateTableRow) (templateId : Nat)
    (status : TemplateStatus) (rejectionReason correctCategory : Option String) (now : Int) :
    List TemplateTableRow :=
  templates.map (fun t =>
    if t.id = templateId then
      { t with status := status.toDb
               rejectionReason := if status = .REJECTED then rejectionReason else none
               correctCategory := if status = .REJECTED then correctCategory else none
               lastSyncedAt := some now
               updatedAt := some now }
    else t)

/-- The latest version row of a template: highest version_no, as the
ORDER BY version_no DESC LIMIT 1 of the source selects. -/
def latestVersion (versions : List TemplateVersionRow) (templateId : Nat) :
    Option TemplateVersionRow :=
  (versions.filter (fun v => v.templateId = templateId)).foldl
    (fun best v =>
      match best with
      | none => some v
      | some b => if v.versionNo > b.versionNo then some v else some b) none

/-- Model of TemplateRepo.updateLatestTemplateVersion: without any
version row the call returns and writes nothing; otherwise the latest
row gets the status, first-occurrence timestamps, and on rejection the
reason. -/
def updateLatestTemplateVersion (versions : List TemplateVersionRow) (templateId : Nat)
    (status : TemplateStatus) (rejectionReason : Option String) (eventAt : Option Int)
    (now : Int) : List TemplateVersionRow :=
  match latestVersion versions templateId with
  | none => versions
  | some version =>
    let timestamp := eventAt.getD now
    versions.map (fun v =>
      if v.id = version.id then
        { v with status := status.toDb
                 submittedAt := if status = .SUBMITTED && v.submittedAt.isNone then some timestamp
                                else v.submittedAt
                 approvedAt := if status = .APPROVED && v.approvedAt.isNone then some timestamp
                               else v.approvedAt
                 rejectedAt := if status = .REJECTED && v.rejectedAt.isNone then some timestamp
                               else v.rejectedAt
                 rejectionReason := if status = .REJECTED then rejectionReason
                                    else v.rejectionReason
                 updatedAt := some now }
      else v)

/-- Model of WorkerService.parseTemplateStatus, the denormalized-column
fallback (IN_REVIEW is not recognized here). -/
def workerParseTemplateStatus : Option String → Option TemplateStatus
  | none => none
  | some v =>
    if v = "" then none
    else
      let n := jsToUpper v
      if n = "APPROVED" then some .APPROVED
      else if n = "REJECTED" then some .REJECTED
      else if n = "PENDING" then some .PENDING
      else if n = "SUBMITTED" then some .SUBMITTED
      else none

/-- The database state touched by the template projection of one raw row. -/
structure TemplateProjectionState where
  templates : List TemplateTableRow
  versions : List TemplateVersionRow
  raw : RawRow

/-- Model of WorkerService.processTemplateEvent for one claimed raw row. -/
def processTemplateEvent (integrations : List IntegrationMapping)
    (st : TemplateProjectionState) (normalizedEvent : Option NormalizedTemplate)
    (now : Int) : TemplateProjectionState :=
  match findActiveByAppId integrations st.raw.appId with
  | none => { st with raw := markProcessedRow st.raw (some "Integration not found for appId") now }
  | some integration =>
    let templateStatus :=
      match normalizedEvent.bind (·.templateStatus) with
      | some s => some s
      | none => workerParseTemplateStatus st.raw.eventStatus
    let templateName :=
      match normalizedEvent.bind (·.templateName) with
      | some n => some n
      | none => st.raw.templateName
    let templateProviderId :=
      match normalizedEvent.bind (·.templateProviderId) with
      | some i => some i
      | none => st.raw.templateProviderId
    let language := normalizedEvent.bind (·.language)
    let rejectionReason := normalizedEvent.bind (·.rejectionReason)
    let correctCategory := normalizedEvent.bind (·.correctCategory)
    let eventAt := normalizedEvent.bind (·.eventAt)
    match templateStatus with
    | none => { st with raw := markProcessedRow st.raw (some "Unrecognized payload") now }
    | some status =>
      let byProvider :=
        match templateProviderId with
        | some pid => findTemplateByProviderId st.templates integration.id pid
        | none => none
      let template :=
        match byProvider with
        | some t => some t
        | none =>
          match templateName with
          | some nm => findTemplateByName st.templates integration.companyId nm language
          | none => none
      match template with
      | none => { st with raw := markProcessedRow st.raw (some "Template not found") now }
      | some tpl =>
        { templates := updateTemplateStatus st.templates tpl.id status rejectionReason
            correctCategory now
          versions := updateLatestTemplateVersion st.versions tpl.id status rejectionReason
            eventAt now
          raw := markProcessedRow st.raw none now }

/-! ## Specification-side definitions

The definitions below word properties the way the specification states
them, to be compared against the source models above. -/

/-- The dedupe-key material as the specification words it: provider event
id first, else the id, status and timestamp when one of them is present,
else the raw body. -/
def dedupeMaterialSpec (appId : String) (n : NormalizedEvent) (rawBody : String) : String :=
  if jsTruthyStr n.providerEventId then
    appId ++ "|" ++ n.kind.asString ++ "|" ++ n.providerEventId.getD ""
  else if jsTruthyStr (pickMessageId n) || jsTruthyStr (pickEventStatus n) || n.eventAt.isSome then
    appId ++ "|" ++ n.kind.asString ++ "|" ++ (pickMessageId n).getD "" ++ "|" ++
      (pickEventStatus n).getD "" ++ "|" ++
      (match n.eventAt with
       | some t => toISOString t
       | none => "")
  else rawBody

/-- The consent status rule as the specification words it: OPT_IN when
only the opt-in timestamp is set, OPT_OUT when only the opt-out one is,
UNKNOWN when neither, and with both set OPT_IN exactly when the opt-in
timestamp is at least the opt-out one. -/
def statusFromTimestampsSpec (lastOptIn lastOptOut : Option Int) : CurrentStatus :=
  match lastOptIn, lastOptOut with
  | some _, none => .OPT_IN
  | none, some _ => .OPT_OUT
  | none, none => .UNKNOWN
  | some i, some o => if i ≥ o then .OPT_IN else .OPT_OUT

/-- The TEMPLATE match condition as the specification words it. -/
def templateCondC6 (p : Json) : Prop :=
  ((probeTemplateStatus p).isSome ∨ (probeTemplateName p).isSome ∨
    (probeTemplateProviderId p).isSome) ∧
  ((probeTemplateStatus p).isSome ∨
    (match probeEventTypeHint p with
     | some h => strIncludes h "template" = true
     | none => False))

/-- The MESSAGE match condition as the specification words it: some
message signal, and no pure-template signal, a template name present
while none of the message ids is. -/
def messageCondC6 (p : Json) : Prop :=
  ((probeMessageId p).isSome ∨ (probeWhatsappMessageId p).isSome ∨
    (probeMessageStatus p).isSome) ∧
  ¬((probeTemplateHint p).isSome ∧ (probeMessageId p).isNone ∧
    (probeWhatsappMessageId p).isNone)

/-- The USER match condition as the specification words it. -/
def userCondC6 (p : Json) : Prop :=
  (probeConsentEvent p).isSome ∨ (probeUserPhone p).isSome

mutual

/-- Every sensitive-keyed entry of the value carries the redaction
marker. -/
def sensOK : LogVal → Bool
  | .varr items => sensOKList items
  | .vobj entries => sensOKEntries entries
  | _ => true

/-- sensOK over a list of values. -/
def sensOKList : List LogVal → Bool
  | [] => true
  | v :: rest => sensOK v && sensOKList rest

/-- sensOK over object entries, checking each key. -/
def sensOKEntries : List (String × LogVal) → Bool
  | [] => true
  | (k, v) :: rest =>
    (if sensitiveKeyPat k then
       (match v with
        | .vstr s => s = "[REDACTED]"
        | _ => false)
     else true) && sensOK v && sensOKEntries rest

end

mutual

/-- No string value anywhere in the value looks like a phone number. -/
def noPhoneStr : LogVal → Bool
  | .vstr s => !looksLikePhone s
  | .varr items => noPhoneStrList items
  | .vobj entries => noPhoneStrEntries entries
  | _ => true

/-- noPhoneStr over a list of values. -/
def noPhoneStrList : List LogVal → Bool
  | [] => true
  | v :: rest => noPhoneStr v && noPhoneStrList rest

/-- noPhoneStr over object entries. -/
def noPhoneStrEntries : List (String × LogVal) → Bool
  | [] => true
  | (_, v) :: rest => noPhoneStr v && noPhoneStrEntries rest

end

/-- A freshly ingested raw row, used to exhibit reachable states. -/
def sampleRawRow : RawRow :=
  { id := 1
    appId := "app-1"
    eventKind := .MESSAGE
    providerEventId := none
    messageId := some "gs-1"
    whatsappMessageId := none
    templateName := none
    templateProviderId := none
    eventStatus := some "delivered"
    receivedAt := 0
    payloadJson := .obj []
    processed := false
    attempts := 0
    lastError := none
    processedAt := none
    dedupeKey := "k" }

/-- A recipient row used as witness input. -/
def sampleRecipient : RecipientRow :=
  { id := 7
    status := .SUBMITTED
    gupshupMessageId := some "gs-1"
    whatsappMessageId := none
    acceptedAt := none
    sentAt := none
    reachedAt := none
    failedAt := none
    lastEventAt := none
    lastErrorCode := none
    lastErrorReason := none
    errorJson := none
    updatedAt := 0 }

/-- A normalized delivered-message event used as witness input. -/
def sampleMessageEvent : NormalizedMessage :=
  { providerEventId := none
    messageId := some "gs-1"
    whatsappMessageId := none
    status := some .delivered
    eventAt := some 1739112000000
    errorCode := none
    errorReason := none
    errorPayload := none }

/-- A template-projection state without any version row, used as witness
input. -/
def sampleTemplateState : TemplateProjectionState :=
  { templates :=
      [{ id := 11
         companyId := 3
         integrationId := 7
         providerTemplateId := some "tpl-1"
         name := "welcome"
         language := none
         status := .SUBMITTED
         rejectionReason := none
         correctCategory := none
         lastSyncedAt := none
         updatedAt := none }]
    versions := []
    raw := { sampleRawRow with eventKind := .TEMPLATE, appId := "A" } }

/-- The integration table used as witness input. -/
def sampleIntegrations : List IntegrationMapping :=
  [{ id := 7, companyId := 3, gupshupAppId := "A", isActive := true }]

/-- A normalized template-approval event used as witness input. -/
def sampleTemplateEvent : NormalizedTemplate :=
  { providerEventId := none
    templateName := none
    templateProviderId := some "tpl-1"
    templateStatus := some .APPROVED
    language := none
    rejectionReason := none
    correctCategory := none
    eventAt := some 1739112000000 }

end Wpp

section ShaTests

example : Wpp.sha256hex "" = "e3b0c44298fc1c149afbf4c8996fb92427ae41e4649b934ca495991b7852b855" := by
  decide

example : Wpp.sha256hex "abc" = "ba7816bf8f01cfea414140de5dae2223b00361a396177a9cb410ff61f20015ad" := by
  decide

end ShaTests

namespace Wpp

/-- Failure steps preserve reachability of raw-row states. -/
theorem iterFail_reachable (reason : String) (now : Int) :
    ∀ (n : Nat) (r : RawRow), RawRowReachable r → RawRowReachable (iterFail reason now n r)
  | 0, _, h => h
  | n + 1, r, h => iterFail_reachable reason now n _ (RawRowReachable.failed r reason now h)

/-- C4: when the worker catches a projection exception for a claimed row
with stored counter a, it writes attempts = a + 1 and finalizes exactly
when a + 1 exceeds 10; an unfinalized failure keeps processed = 0 with
attempts and last_error updated; every reachable raw-row state with
attempts above 10 is processed; and a pending row with attempts = 10 is
reachable. -/
theorem worker_retry_invariant :
    (∀ (r : RawRow) (reason : String) (now : Int),
      (workerFailStep r reason maxAttemptsDefault now).attempts = r.attempts + 1 ∧
      ((workerFailStep r reason maxAttemptsDefault now).processed = true ↔ r.attempts + 1 > 10) ∧
      (r.attempts + 1 > 10 →
        (workerFailStep r reason maxAttemptsDefault now).processedAt = some now)) ∧
    (∀ (r : RawRow) (a : Nat) (msg : String) (now : Int),
      (markFailedAttemptRow r a msg false now).processed = false ∧
      (markFailedAttemptRow r a msg false now).attempts = a ∧
      (markFailedAttemptRow r a msg false now).lastError = trimError (some msg)) ∧
    (∀ r : RawRow, RawRowReachable r → r.attempts > maxAttemptsDefault → r.processed = true) ∧
    (∃ r : RawRow, RawRowReachable r ∧ r.attempts = 10 ∧ r.processed = false) := by
  refine ⟨?_, ?_, ?_, ?_⟩
  · intro r reason now
    unfold workerFailStep markFailedAttemptRow
    by_cases h : r.attempts + 1 > 10
    · simp [maxAttemptsDefault, h]
    · simp [maxAttemptsDefault, h]
  · intro r a msg now
    simp [markFailedAttemptRow]
  · intro r h
    induction h with
    | inserted r hp ha hpa =>
      intro hgt
      rw [ha] at hgt
      exact absurd hgt (by simp [maxAttemptsDefault])
    | failed r reason now h ih =>
      intro hgt
      unfold workerFailStep markFailedAttemptRow
      by_cases hfin : r.attempts + 1 > maxAttemptsDefault
      · simp [hfin]
      · exfalso
        unfold workerFailStep markFailedAttemptRow at hgt
        simp [hfin] at hgt
    | succeeded r le now h ih =>
      intro _
      simp [markProcessedRow]
  · refine ⟨iterFail "e" 0 10 sampleRawRow,
      iterFail_reachable "e" 0 10 sampleRawRow
        (RawRowReachable.inserted sampleRawRow rfl rfl rfl), by decide, by decide⟩

/-- Witness for C4 at a concrete reachable row. -/
theorem worker_retry_invariant_witness :
    (iterFail "e" 0 11 sampleRawRow).processed = true :=
  worker_retry_invariant.2.2.1 (iterFail "e" 0 11 sampleRawRow)
    (iterFail_reachable "e" 0 11 sampleRawRow
      (RawRowReachable.inserted sampleRawRow rfl rfl rfl)) (by decide)

/-- The stored status function agrees with the status rule the
specification words from the timestamp pair. -/
theorem computeStatus_eq_spec (a b : Option Int) :
    computeStatus a b = statusFromTimestampsSpec a b := by
  cases a <;> cases b <;> simp [computeStatus, statusFromTimestampsSpec]

/-- C5: after every upsert the stored status is derived from the stored
timestamp pair by the tie-to-OPT_IN rule; an OPT_IN event advances the
opt-in timestamp to the maximum of old value and event time and carries
the opt-out one, symmetrically for OPT_OUT; both timestamps are
non-decreasing. -/
theorem consent_upsert_status (cur : Option MarketingCurrentRow) (userId companyId : Nat)
    (eventType : ConsentType) (eventAt now : Int) :
    (upsertMarketingCurrent cur userId companyId eventType eventAt now).status =
      statusFromTimestampsSpec
        (upsertMarketingCurrent cur userId companyId eventType eventAt now).lastOptInAt
        (upsertMarketingCurrent cur userId companyId eventType eventAt now).lastOptOutAt ∧
    (eventType = .OPT_IN →
      (upsertMarketingCurrent cur userId companyId eventType eventAt now).lastOptInAt =
        some (maxDate (cur.bind (·.lastOptInAt)) eventAt) ∧
      (upsertMarketingCurrent cur userId companyId eventType eventAt now).lastOptOutAt =
        cur.bind (·.lastOptOutAt)) ∧
    (eventType = .OPT_OUT →
      (upsertMarketingCurrent cur userId companyId eventType eventAt now).lastOptOutAt =
        some (maxDate (cur.bind (·.lastOptOutAt)) eventAt) ∧
      (upsertMarketingCurrent cur userId companyId eventType eventAt now).lastOptInAt =
        cur.bind (·.lastOptInAt)) ∧
    (∀ x, cur.bind (·.lastOptInAt) = some x →
      ∃ y, (upsertMarketingCurrent cur userId companyId eventType eventAt now).lastOptInAt =
        some y ∧ x ≤ y) ∧
    (∀ x, cur.bind (·.lastOptOutAt) = some x →
      ∃ y, (upsertMarketingCurrent cur userId companyId eventType eventAt now).lastOptOutAt =
        some y ∧ x ≤ y) := by
  refine ⟨?_, ?_, ?_, ?_, ?_⟩
  · simp only [upsertMarketingCurrent]
    exact computeStatus_eq_spec _ _
  · intro he
    simp [upsertMarketingCurrent, he]
  · intro he
    cases eventType with
    | OPT_IN => exact absurd he (by simp)
    | OPT_OUT => simp [upsertMarketingCurrent]
  · intro x hx
    cases eventType with
    | OPT_IN =>
      refine ⟨maxDate (cur.bind (·.lastOptInAt)) eventAt, by simp [upsertMarketingCurrent], ?_⟩
      rw [hx]
      simp only [maxDate]
      split <;> omega
    | OPT_OUT => exact ⟨x, by simp [upsertMarketingCurrent, hx], le_refl x⟩
  · intro x hx
    cases eventType with
    | OPT_OUT =>
      refine ⟨maxDate (cur.bind (·.lastOptOutAt)) eventAt, by simp [upsertMarketingCurrent], ?_⟩
      rw [hx]
      simp only [maxDate]
      split <;> omega
    | OPT_IN => exact ⟨x, by simp [upsertMarketingCurrent, hx], le_refl x⟩

/-- Witness for C5 at a concrete opt-in upsert. -/
theorem consent_upsert_status_witness :
    (upsertMarketingCurrent none 1 2 ConsentType.OPT_IN 5 9).lastOptInAt =
      some (maxDate ((none : Option MarketingCurrentRow).bind (·.lastOptInAt)) 5) ∧
    (upsertMarketingCurrent none 1 2 ConsentType.OPT_IN 5 9).lastOptOutAt =
      (none : Option MarketingCurrentRow).bind (·.lastOptOutAt) :=
  (consent_upsert_status none 1 2 ConsentType.OPT_IN 5 9).2.1 rfl

end Wpp

namespace Wpp

/-- Once a transition other than IGNORE is decided, the status recorded
by the write set is the applied status, and in a write-free outcome the
applied status is the current one. -/
theorem recipientWrites_status_eq (r : RecipientRow) (ev : NormalizedMessage)
    (st : MessageStatus) (eventAt now : Int)
    (h : evaluateTransition r.status (TARGET_STATUS_BY_MESSAGE_EVENT st) st ≠ .IGNORE) :
    (recipientWrites r ev st eventAt now).2.status = appliedStatus r.status st ∧
    ((recipientWrites r ev st eventAt now).1 = false →
      r.status = appliedStatus r.status st) := by
  rcases hn : nextStatusOpt (evaluateTransition r.status (TARGET_STATUS_BY_MESSAGE_EVENT st) st)
      st r.status (TARGET_STATUS_BY_MESSAGE_EVENT st) with _ | ns
  · constructor
    · simp [recipientWrites, appliedStatus, hn, h]
    · intro _
      simp [appliedStatus, hn, h]
  · have hns : ns = TARGET_STATUS_BY_MESSAGE_EVENT st := by
      unfold nextStatusOpt at hn
      split at hn
      · exact (Option.some_inj.mp hn).symm
      · exact absurd hn (by simp)
    subst hns
    constructor
    · by_cases hne : TARGET_STATUS_BY_MESSAGE_EVENT st = r.status
      · have happ : appliedStatus r.status st = TARGET_STATUS_BY_MESSAGE_EVENT st := by
          simp [appliedStatus, hn, h]
        simp [recipientWrites, hn, happ, hne]
      · simp [recipientWrites, appliedStatus, hn, h, hne]
    · intro hw
      simp only [recipientWrites] at hw
      rw [hn] at hw
      simp only [Bool.or_eq_false_iff] at hw
      have hts : TARGET_STATUS_BY_MESSAGE_EVENT st = r.status := by
        have h1 := hw.1.1.1.1.1.1.1.1.1
        simpa using h1
      have happ : appliedStatus r.status st = TARGET_STATUS_BY_MESSAGE_EVENT st := by
        simp [appliedStatus, hn, h]
      rw [happ, hts]

end Wpp

namespace Wpp

/-- C3: the transition decision of applyMessageEvent obeys the failed
rule, ignores everything once FAILED, upgrades exactly on a strict rank
increase under the listed ranks, and consequently the stored status rank
never decreases on a non-failed event; the status stored by
applyMessageEvent on a found recipient is the applied-status function of
current and incoming status alone. -/
theorem recipient_transition_rules :
    (STATUS_RANK .PENDING = 0 ∧ STATUS_RANK .SKIPPED = 0 ∧ STATUS_RANK .SUBMITTED = 1 ∧
      STATUS_RANK .RETRYING = 1 ∧ STATUS_RANK .SENT = 2 ∧ STATUS_RANK .DELIVERED = 3 ∧
      STATUS_RANK .READ = 4 ∧ STATUS_RANK .FAILED = 5) ∧
    (∀ c : RecipientStatus,
      (evaluateTransition c (TARGET_STATUS_BY_MESSAGE_EVENT .failed) .failed = .IGNORE ↔
        c = .READ) ∧
      (evaluateTransition c (TARGET_STATUS_BY_MESSAGE_EVENT .failed) .failed = .SAME ↔
        c = .FAILED) ∧
      (c ≠ .READ → c ≠ .FAILED →
        evaluateTransition c (TARGET_STATUS_BY_MESSAGE_EVENT .failed) .failed = .UPGRADE ∧
        appliedStatus c .failed = .FAILED) ∧
      appliedStatus .FAILED .failed = .FAILED ∧ appliedStatus .READ .failed = .READ) ∧
    (∀ (c : RecipientStatus) (st : MessageStatus), st ≠ .failed →
      (c = .FAILED → evaluateTransition c (TARGET_STATUS_BY_MESSAGE_EVENT st) st = .IGNORE) ∧
      (c ≠ .FAILED →
        appliedStatus c st =
          (if STATUS_RANK c < STATUS_RANK (TARGET_STATUS_BY_MESSAGE_EVENT st) then
             TARGET_STATUS_BY_MESSAGE_EVENT st
           else c)) ∧
      STATUS_RANK c ≤ STATUS_RANK (appliedStatus c st)) ∧
    (∀ (r : RecipientRow) (ev : NormalizedMessage) (st : MessageStatus) (mid : String)
      (now : Int),
      ev.status = some st → ev.messageId = some mid → mid ≠ "" →
      r.gupshupMessageId = some mid →
      (applyMessageEvent [r] ev now).2.map (fun x => x.status) =
        [appliedStatus r.status st]) := by
  refine ⟨by decide, by decide, by decide, ?_⟩
  intro r ev st mid now hst hmid hne hg
  have htruthy : jsTruthyStr ev.messageId = true := by
    rw [hmid]; simp [jsTruthyStr, hne]
  have hfind : findRecipient [r] ev.messageId ev.whatsappMessageId = some r := by
    rw [hmid]
    simp [findRecipient, jsTruthyStr, hne, List.find?, hg]
  unfold applyMessageEvent
  rw [htruthy]
  simp only [Bool.not_true, Bool.false_and, Bool.false_eq_true, if_false, hfind, hst]
  by_cases htr : evaluateTransition r.status
      (TARGET_STATUS_BY_MESSAGE_EVENT st) st = .IGNORE
  · simp [htr, appliedStatus]
  · have hlem := recipientWrites_status_eq r ev st (ev.eventAt.getD now) now htr
    simp only [htr, if_false]
    by_cases hw : (recipientWrites r ev st (ev.eventAt.getD now) now).1 = false
    · simp [hw, ← hlem.2 hw]
    · simp only [Bool.not_eq_false] at hw
      simp [hw, hlem.1]

end Wpp

namespace Wpp

/-- Witness for C3 at a concrete delivered event on a submitted
recipient. -/
theorem recipient_transition_rules_witness :
    (applyMessageEvent [sampleRecipient] sampleMessageEvent 0).2.map (fun x => x.status) =
      [appliedStatus sampleRecipient.status MessageStatus.delivered] :=
  recipient_transition_rules.2.2.2 sampleRecipient sampleMessageEvent .delivered "gs-1" 0
    rfl rfl (by decide) rfl

/-- Length of the hex fold over digest words. -/
theorem hexFold_length (ws : List Nat) :
    (ws.foldr (fun w acc => wordHex w ++ acc) []).length = 8 * ws.length := by
  induction ws with
  | nil => rfl
  | cons w rest ih =>
    rw [List.foldr_cons, List.length_append, ih]
    have hw : (wordHex w).length = 8 := by simp [wordHex, nibbles]
    rw [hw, List.length_cons]
    ring

/-- Every character of the hex fold is a lowercase hex digit. -/
theorem hexFold_mem (ws : List Nat) :
    ∀ c ∈ ws.foldr (fun w acc => wordHex w ++ acc) [], isLowerHexDigit c = true := by
  have hsixteen : ∀ k : Fin 16, isLowerHexDigit (hexChar k.val) = true := by decide
  induction ws with
  | nil => intro c hc; exact absurd hc (by simp)
  | cons w rest ih =>
    intro c hc
    rcases List.mem_append.mp hc with hl | hr
    · rcases List.mem_map.mp hl with ⟨n, _, hn⟩
      rw [← hn]
      exact hsixteen ⟨n % 16, Nat.mod_lt n (by omega)⟩
    · exact ih c hr

/-- The digest word list always has eight entries. -/
theorem sha256Words_length (msg : List Nat) : (sha256Words msg).length = 8 := by
  simp [sha256Words]

/-- Length of a packed character list as a string. -/
theorem string_mk_length (l : List Char) : (String.mk l).length = l.length := rfl

/-- Every sha256hex digest is 64 lowercase hex characters. -/
theorem sha256hex_shape (s : String) :
    (sha256hex s).length = 64 ∧ ∀ c ∈ (sha256hex s).data, isLowerHexDigit c = true := by
  constructor
  · show (sha256HexBytes (utf8Encode s)).length = 64
    unfold sha256HexBytes
    rw [string_mk_length, hexFold_length, sha256Words_length]
  · intro c hc
    exact hexFold_mem (sha256Words (utf8Encode s)) c hc

end Wpp

namespace Wpp

/-- A rendered ISO timestamp is never the empty string. -/
theorem toISOString_ne_empty (ms : Int) : toISOString ms ≠ "" := by
  intro h
  have hlen : (toISOString ms).length = 0 := by rw [h]; rfl
  have : 0 < (toISOString ms).length := by
    simp [toISOString, String.length_append]
    exact Or.inr (by decide)
  omega

/-- The hashed material agrees with the material rule as the
specification words it. -/
theorem dedupeMaterial_eq_spec (appId : String) (n : NormalizedEvent) (rawBody : String) :
    dedupeMaterial appId n rawBody = dedupeMaterialSpec appId n rawBody := by
  unfold dedupeMaterial dedupeMaterialSpec
  cases h : n.eventAt with
  | none => simp [h]
  | some t => simp [h, toISOString_ne_empty t]

/-- C2: buildDedupeKey is the SHA-256 hex digest, 64 lowercase hex
characters, of the material picked per the specification: provider event
id material when present, else id, status and ISO timestamp when one of
them is present, else the full raw body; being a function of appId,
normalized fields, and raw body, equal inputs give equal keys. -/
theorem dedupe_key_spec (appId : String) (n : NormalizedEvent) (rawBody : String) :
    buildDedupeKey appId n rawBody = sha256hex (dedupeMaterialSpec appId n rawBody) ∧
    (buildDedupeKey appId n rawBody).length = 64 ∧
    (∀ c ∈ (buildDedupeKey appId n rawBody).data, isLowerHexDigit c = true) ∧
    (jsTruthyStr n.providerEventId = true →
      buildDedupeKey appId n rawBody =
        sha256hex (appId ++ "|" ++ n.kind.asString ++ "|" ++ n.providerEventId.getD "")) ∧
    (jsTruthyStr n.providerEventId = false →
      jsTruthyStr (pickMessageId n) = false → jsTruthyStr (pickEventStatus n) = false →
      n.eventAt = none →
      buildDedupeKey appId n rawBody = sha256hex rawBody) := by
  refine ⟨?_, (sha256hex_shape _).1, (sha256hex_shape _).2, ?_, ?_⟩
  · unfold buildDedupeKey
    rw [dedupeMaterial_eq_spec]
  · intro hp
    unfold buildDedupeKey dedupeMaterial
    simp [hp]
  · intro hp hm hs hat
    unfold buildDedupeKey dedupeMaterial
    simp [hp, hm, hs, hat]

/-- Witness for C2 on a normalized event carrying a provider event id. -/
theorem dedupe_key_spec_witness :
    buildDedupeKey "app-1"
        (NormalizedEvent.unknown (some "ev-42") none) "body" =
      sha256hex ("app-1" ++ "|" ++ (NormalizedEvent.unknown (some "ev-42") none).kind.asString ++
        "|" ++ ((NormalizedEvent.unknown (some "ev-42") none).providerEventId.getD "") ) :=
  (dedupe_key_spec "app-1" (NormalizedEvent.unknown (some "ev-42") none) "body").2.2.2.1
    (by decide)

end Wpp

namespace Wpp

/-- Dedupe behavior of the raw insert: the count under a key grows only
when the key was absent, inserted reports exactly that, and afterwards
the key is always present. -/
theorem insertRawEvent_dedupe (rows : List RawRow) (input : RawInsertInput) (now : Int) :
    ((insertRawEvent rows input now).2.countP (fun r => r.dedupeKey = input.dedupeKey) =
      rows.countP (fun r => r.dedupeKey = input.dedupeKey) +
        (if rows.any (fun r => r.dedupeKey = input.dedupeKey) then 0 else 1)) ∧
    ((insertRawEvent rows input now).1 =
      !rows.any (fun r => r.dedupeKey = input.dedupeKey)) ∧
    ((insertRawEvent rows input now).2.any (fun r => r.dedupeKey = input.dedupeKey) = true) := by
  by_cases h : rows.any (fun r => r.dedupeKey = input.dedupeKey)
  · refine ⟨?_, ?_, ?_⟩ <;> simp [insertRawEvent, h]
  · refine ⟨?_, ?_, ?_⟩ <;> simp [insertRawEvent, h, List.countP_append]

/-- C1: two ingest calls with the same app id and byte-identical body
build equal dedupe keys, both acknowledge ok, the second insert reports
inserted = false without an error and leaves the store unchanged, and a
key absent beforehand is held by exactly one row afterwards. -/
theorem ingest_idempotent (appId body : String) (rows : List RawRow) (now1 now2 : Int) :
    (ingest appId body rows now1).1.ok = true ∧
    (ingest appId body (ingest appId body rows now1).2 now2).1.ok = true ∧
    (ingest appId body rows now1).1.dedupeKey =
      (ingest appId body (ingest appId body rows now1).2 now2).1.dedupeKey ∧
    (ingest appId body (ingest appId body rows now1).2 now2).1.inserted = false ∧
    (ingest appId body (ingest appId body rows now1).2 now2).2 =
      (ingest appId body rows now1).2 ∧
    (rows.countP (fun r => r.dedupeKey = (ingest appId body rows now1).1.dedupeKey) = 0 →
      (ingest appId body (ingest appId body rows now1).2 now2).2.countP
        (fun r => r.dedupeKey = (ingest appId body rows now1).1.dedupeKey) = 1) := by
  simp only [ingest]
  by_cases h : rows.any (fun r =>
    r.dedupeKey = buildDedupeKey appId (normalize (parseRawBody body).normalizedPayload) body)
  · refine ⟨trivial, trivial, trivial, ?_, ?_, ?_⟩
    · simp [insertRawEvent, h]
    · simp [insertRawEvent, h]
    · intro hc
      exfalso
      rcases List.any_eq_true.mp h with ⟨r, hr, hrk⟩
      have := List.countP_eq_zero.mp hc r hr
      simp at this hrk
      exact this hrk
  · refine ⟨trivial, trivial, trivial, ?_, ?_, ?_⟩
    · simp [insertRawEvent, h]
    · simp [insertRawEvent, h]
    · intro hc
      simp [insertRawEvent, h, List.countP_append, hc]

/-- Witness for C1: double ingest of a concrete body into an empty
store leaves exactly one row under the key. -/
theorem ingest_idempotent_witness :
    ((([] : List RawRow)).countP
        (fun r => r.dedupeKey = (ingest "app-1" "hello" [] 0).1.dedupeKey) = 0) ∧
    ((ingest "app-1" "hello" (ingest "app-1" "hello" [] 0).2 1).2.countP
        (fun r => r.dedupeKey = (ingest "app-1" "hello" [] 0).1.dedupeKey) = 1) :=
  ⟨rfl, (ingest_idempotent "app-1" "hello" [] 0 1).2.2.2.2.2 rfl⟩

end Wpp

namespace Wpp

/-- The template variant matches exactly under the TEMPLATE condition. -/
theorem normalizeTemplate_some_iff (p : Json) :
    (normalizeTemplate p).isSome ↔ templateCondC6 p := by
  unfold normalizeTemplate templateCondC6
  rcases hs : probeTemplateStatus p with _ | s <;>
    rcases hh : probeEventTypeHint p with _ | hint <;>
      simp [hs, hh]
  · by_cases hinc : strIncludes hint "template" = true <;>
      rcases hn : probeTemplateName p with _ | nm <;>
        rcases hp : probeTemplateProviderId p with _ | pid <;>
          simp [hinc, hn, hp]

/-- The message variant matches exactly under the MESSAGE condition. -/
theorem normalizeMessage_some_iff (p : Json) :
    (normalizeMessage p).isSome ↔ messageCondC6 p := by
  unfold normalizeMessage messageCondC6
  rcases hm : probeMessageId p with _ | mid <;>
    rcases hw : probeWhatsappMessageId p with _ | wa <;>
      rcases hst : probeMessageStatus p with _ | st <;>
        rcases hh : probeTemplateHint p with _ | hint <;>
          simp [hm, hw, hst, hh]

/-- The user variant matches exactly under the USER condition. -/
theorem normalizeUser_some_iff (p : Json) :
    (normalizeUser p).isSome ↔ userCondC6 p := by
  unfold normalizeUser userCondC6
  rcases hc : probeConsentEvent p with _ | c <;>
    rcases hph : probeUserPhone p with _ | ph <;>
      simp [hc, hph]

/-- C6: normalize tries TEMPLATE, MESSAGE, USER in that order and
returns the first variant whose condition holds, else UNKNOWN, where the
conditions are the ones the specification words. -/
theorem normalize_variant_order (p : Json) :
    ((normalize p).kind = .TEMPLATE ↔ templateCondC6 p) ∧
    ((normalize p).kind = .MESSAGE ↔ ¬templateCondC6 p ∧ messageCondC6 p) ∧
    ((normalize p).kind = .USER ↔
      ¬templateCondC6 p ∧ ¬messageCondC6 p ∧ userCondC6 p) ∧
    ((normalize p).kind = .UNKNOWN ↔
      ¬templateCondC6 p ∧ ¬messageCondC6 p ∧ ¬userCondC6 p) := by
  have ht := normalizeTemplate_some_iff p
  have hm := normalizeMessage_some_iff p
  have hu := normalizeUser_some_iff p
  unfold normalize
  rcases h1 : normalizeTemplate p with _ | t
  · rcases h2 : normalizeMessage p with _ | m
    · rcases h3 : normalizeUser p with _ | u
      · rw [h1] at ht
        rw [h2] at hm
        rw [h3] at hu
        simp only [Option.isSome_none, Bool.false_eq_true, false_iff] at ht hm hu
        simp [NormalizedEvent.kind, ht, hm, hu]
      · rw [h1] at ht
        rw [h2] at hm
        rw [h3] at hu
        simp only [Option.isSome_none, Option.isSome_some, Bool.false_eq_true, false_iff,
          true_iff] at ht hm hu
        simp [NormalizedEvent.kind, ht, hm, hu]
    · rw [h1] at ht
      rw [h2] at hm
      simp only [Option.isSome_none, Option.isSome_some, Bool.false_eq_true, false_iff,
        true_iff] at ht hm
      simp [NormalizedEvent.kind, ht, hm]
  · rw [h1] at ht
    simp only [Option.isSome_some, true_iff] at ht
    simp [NormalizedEvent.kind, ht]

end Wpp

namespace Wpp

/-- Decomposition of the digit fold. -/
theorem foldl_digits_decomp (ds : List Char) :
    ∀ acc : Nat,
      List.foldl (fun a c => a * 10 + (c.toNat - 48)) acc ds =
        acc * 10 ^ ds.length + digitsToNat ds := by
  induction ds with
  | nil => intro acc; simp [digitsToNat]
  | cons c ds ih =>
    intro acc
    have h1 : digitsToNat (c :: ds) = (c.toNat - 48) * 10 ^ ds.length + digitsToNat ds := by
      show List.foldl _ (0 * 10 + (c.toNat - 48)) ds = _
      rw [ih]
      ring_nf
    show List.foldl _ (acc * 10 + (c.toNat - 48)) ds = _
    rw [ih, h1, List.length_cons]
    ring

/-- A digit string of n digits denotes a value below 10 to the n. -/
theorem digitsToNat_lt (ds : List Char) (h : ∀ c ∈ ds, c.isDigit = true) :
    digitsToNat ds < 10 ^ ds.length := by
  induction ds with
  | nil => simp [digitsToNat]
  | cons c ds ih =>
    have hd : c.toNat - 48 ≤ 9 := by
      have hc := h c (List.mem_cons_self c ds)
      have hb : 48 ≤ c.toNat ∧ c.toNat ≤ 57 := by
        simp [Char.isDigit] at hc
        exact hc
      omega
    have hrec : digitsToNat ds < 10 ^ ds.length := ih (fun x hx => h x (List.mem_cons_of_mem c hx))
    have h1 : digitsToNat (c :: ds) = (c.toNat - 48) * 10 ^ ds.length + digitsToNat ds := by
      show List.foldl _ (0 * 10 + (c.toNat - 48)) ds = _
      rw [foldl_digits_decomp]
      ring_nf
    rw [h1, List.length_cons]
    calc (c.toNat - 48) * 10 ^ ds.length + digitsToNat ds
        < (c.toNat - 48) * 10 ^ ds.length + 10 ^ ds.length := by omega
      _ = (c.toNat - 48 + 1) * 10 ^ ds.length := by ring
      _ ≤ 10 * 10 ^ ds.length := Nat.mul_le_mul_right _ (by omega)
      _ = 10 ^ (ds.length + 1) := by ring

/-- A digit string without leading zero denotes at least 10 to the
length less one. -/
theorem digitsToNat_ge (c : Char) (ds : List Char) (hc : c.isDigit = true) (h0 : c ≠ '0') :
    10 ^ ds.length ≤ digitsToNat (c :: ds) := by
  have hd : 1 ≤ c.toNat - 48 := by
    have hb : 48 ≤ c.toNat ∧ c.toNat ≤ 57 := by
      simp [Char.isDigit] at hc
      exact hc
    by_cases h48 : c.toNat = 48
    · exact absurd (Char.ext (UInt32.ext
        (by rw [show c.val.toNat = c.toNat from rfl, h48]; rfl))) h0
    · omega
  have h1 : digitsToNat (c :: ds) = (c.toNat - 48) * 10 ^ ds.length + digitsToNat ds := by
    show List.foldl _ (0 * 10 + (c.toNat - 48)) ds = _
    rw [foldl_digits_decomp]
    ring_nf
  rw [h1]
  calc 10 ^ ds.length = 1 * 10 ^ ds.length := by ring
    _ ≤ (c.toNat - 48) * 10 ^ ds.length := Nat.mul_le_mul_right _ hd
    _ ≤ (c.toNat - 48) * 10 ^ ds.length + digitsToNat ds := Nat.le_add_right _ _

end Wpp

namespace Wpp

/-- C8: parseTimestamp accepts epoch seconds (numbers or all-digit
strings up to ten digits, scaled by 1000), epoch milliseconds (values
beyond ten digits) within the valid Date range, already-parsed dates,
and date-format strings; null, undefined, blank strings, non-digit
non-date strings and non-finite numbers give null. -/
theorem parseTimestamp_spec :
    parseTimestampVal .null = none ∧
    parseTimestampVal .undef = none ∧
    parseTimestampVal .other = none ∧
    (∀ d : Option Int, parseTimestampVal (.date d) = d) ∧
    parseTimestampVal (.num .nan) = none ∧
    parseTimestampVal (.num .posInf) = none ∧
    parseTimestampVal (.num .negInf) = none ∧
    (∀ n : Int, 0 ≤ n → n ≤ 9999999999 →
      parseTimestampVal (.num (.finite n)) = some (n * 1000)) ∧
    (∀ n : Int, 9999999999 < n → n ≤ maxDateMs →
      parseTimestampVal (.num (.finite n)) = some n) ∧
    (∀ s : String, jsTrim s = "" → parseTimestampVal (.str s) = none) ∧
    (∀ s : String, (jsTrim s).data ≠ [] → (∀ c ∈ (jsTrim s).data, c.isDigit = true) →
      (jsTrim s).length ≤ 10 →
      parseTimestampVal (.str s) = some (Int.ofNat (digitsToNat (jsTrim s).data) * 1000)) ∧
    (∀ (s : String) (c : Char) (cs : List Char), (jsTrim s).data = c :: cs →
      c.isDigit = true → c ≠ '0' → (∀ x ∈ cs, x.isDigit = true) →
      10 < (jsTrim s).length → Int.ofNat (digitsToNat (jsTrim s).data) ≤ maxDateMs →
      parseTimestampVal (.str s) = some (Int.ofNat (digitsToNat (jsTrim s).data))) ∧
    (∀ s : String, jsTrim s ≠ "" → ((jsTrim s).data.all Char.isDigit) = false →
      parseTimestampVal (.str s) = jsDateParse (jsTrim s)) := by
  refine ⟨rfl, rfl, rfl, fun d => rfl, rfl, rfl, rfl, ?_, ?_, ?_, ?_, ?_, ?_⟩
  · intro n h0 h10
    have hms : ¬(n > 9999999999) := by omega
    have hin : msInRange (n * 1000) = true := by
      simp [msInRange]
      omega
    simp [parseTimestampVal, fromEpoch, hms, hin]
  · intro n h10 hmax
    have hin : msInRange n = true := by
      simp [msInRange, maxDateMs] at hmax ⊢
      omega
    simp [parseTimestampVal, fromEpoch, h10, hin]
  · intro s hs
    have hlen : (jsTrim s).length = 0 := by rw [hs]; rfl
    simp [parseTimestampVal, hlen]
  · intro s hne hdig hlen
    have hlen0 : ¬((jsTrim s).length = 0) := by
      intro h
      exact hne (List.length_eq_zero.mp h)
    have hall : (jsTrim s).data.all Char.isDigit = true := List.all_eq_true.mpr hdig
    have hval : digitsToNat (jsTrim s).data < 10 ^ 10 := by
      calc digitsToNat (jsTrim s).data < 10 ^ (jsTrim s).data.length :=
            digitsToNat_lt _ hdig
        _ ≤ 10 ^ 10 := Nat.pow_le_pow_right (by omega) hlen
    have hmsn : ¬(9999999999 < digitsToNat (jsTrim s).data) := by omega
    have hin : msInRange ((digitsToNat (jsTrim s).data : Int) * 1000) = true := by
      simp [msInRange]
      omega
    simp [parseTimestampVal, fromEpoch, hlen0, hne, hall, hmsn, hin]
  · intro s c cs hdata hc h0 hcs hlen hmax
    have hlen0 : ¬((jsTrim s).length = 0) := by
      show ¬((jsTrim s).data.length = 0)
      rw [hdata]
      simp
    have hne : (jsTrim s).data ≠ [] := by rw [hdata]; simp
    have hall : (jsTrim s).data.all Char.isDigit = true := by
      rw [hdata]
      exact List.all_eq_true.mpr (by
        intro x hx
        rcases List.mem_cons.mp hx with h | h
        · rw [h]; exact hc
        · exact hcs x h)
    have hge : 10 ^ 10 ≤ digitsToNat (jsTrim s).data := by
      rw [hdata]
      calc (10 : Nat) ^ 10 ≤ 10 ^ cs.length := by
            apply Nat.pow_le_pow_right (by omega)
            have : (jsTrim s).data.length = cs.length + 1 := by rw [hdata]; simp
            have hl : (jsTrim s).length = (jsTrim s).data.length := rfl
            omega
        _ ≤ digitsToNat (c :: cs) := digitsToNat_ge c cs hc h0
    have hmsn : 9999999999 < digitsToNat (jsTrim s).data := by omega
    have hin : msInRange ((digitsToNat (jsTrim s).data : Int)) = true := by
      simp only [Int.ofNat_eq_coe] at hmax
      simp [msInRange, maxDateMs] at hmax ⊢
      omega
    simp [parseTimestampVal, fromEpoch, hlen0, hne, hall, hmsn, hin]
  · intro s hne hnd
    have hlen0 : ¬((jsTrim s).length = 0) := by
      intro h
      exact hne (by
        have : (jsTrim s).data = [] := List.length_eq_zero.mp h
        cases hq : jsTrim s
        rw [hq] at this
        simpa [this] using congrArg String.mk this.symm ▸ rfl)
    simp [parseTimestampVal, hlen0, hnd]

/-- Witness for C8 at a concrete ten-digit epoch string. -/
theorem parseTimestamp_spec_witness :
    parseTimestampVal (.str "1739112000") =
      some (Int.ofNat (digitsToNat (jsTrim "1739112000").data) * 1000) :=
  parseTimestamp_spec.2.2.2.2.2.2.2.2.2.2.1 "1739112000" (by decide) (by decide) (by decide)

end Wpp

namespace Wpp

/-- Membership in an ordered insertion. -/
theorem mem_insertByReceived (r x : LockableRow) (l : List LockableRow) :
    x ∈ insertByReceived r l ↔ x = r ∨ x ∈ l := by
  induction l with
  | nil => simp [insertByReceived]
  | cons y ys ih =>
    by_cases h : r.receivedAt < y.receivedAt
    · simp [insertByReceived, h]
    · simp only [insertByReceived, h, if_false, List.mem_cons, ih]
      tauto

/-- Sorting by arrival keeps exactly the original rows. -/
theorem mem_sortByReceived (x : LockableRow) (l : List LockableRow) :
    x ∈ sortByReceived l ↔ x ∈ l := by
  induction l with
  | nil => simp [sortByReceived]
  | cons y ys ih =>
    show x ∈ insertByReceived y (sortByReceived ys) ↔ _
    rw [mem_insertByReceived]
    simp only [List.mem_cons, ih]

/-- Ordered insertion preserves sortedness by arrival time. -/
theorem pairwise_insertByReceived (r : LockableRow) (l : List LockableRow)
    (h : l.Pairwise (fun x y => x.receivedAt ≤ y.receivedAt)) :
    (insertByReceived r l).Pairwise (fun x y => x.receivedAt ≤ y.receivedAt) := by
  induction l with
  | nil => simp [insertByReceived]
  | cons y ys ih =>
    rcases List.pairwise_cons.mp h with ⟨hy, hys⟩
    by_cases hlt : r.receivedAt < y.receivedAt
    · simp only [insertByReceived, hlt, if_true]
      refine List.pairwise_cons.mpr ⟨?_, h⟩
      intro z hz
      rcases List.mem_cons.mp hz with h1 | h1
      · rw [h1]; omega
      · have := hy z h1
        omega
    · simp only [insertByReceived, hlt, if_false]
      refine List.pairwise_cons.mpr ⟨?_, ih hys⟩
      intro z hz
      rcases (mem_insertByReceived r z ys).mp hz with h1 | h1
      · rw [h1]; omega
      · exact hy z h1

/-- The sorted pending list is sorted by arrival time. -/
theorem pairwise_sortByReceived (l : List LockableRow) :
    (sortByReceived l).Pairwise (fun x y => x.receivedAt ≤ y.receivedAt) := by
  induction l with
  | nil => simp [sortByReceived]
  | cons y ys ih => exact pairwise_insertByReceived y (sortByReceived ys) ih

/-- C7: two lockNextBatch claims in separate open transactions return
disjoint row sets; each selection holds only pending unlocked rows in
arrival order, at most batchSize of them, so each pending raw row is
dispatched by at most one of two concurrent workers. -/
theorem lockNextBatch_disjoint (tx1 tx2 n1 n2 : Nat) (db : List LockableRow) :
    (∀ a ∈ (lockNextBatch tx1 n1 db).1, a.processed = false ∧ a.lockedBy = none) ∧
    (lockNextBatch tx1 n1 db).1.length ≤ n1 ∧
    (lockNextBatch tx1 n1 db).1.Pairwise (fun x y => x.receivedAt ≤ y.receivedAt) ∧
    (∀ a ∈ (lockNextBatch tx1 n1 db).1,
      ∀ b ∈ (lockNextBatch tx2 n2 (lockNextBatch tx1 n1 db).2).1, a.rid ≠ b.rid) := by
  refine ⟨?_, ?_, ?_, ?_⟩
  · intro a ha
    have h1 : a ∈ sortByReceived (db.filter (fun r => !r.processed && r.lockedBy = none)) :=
      List.mem_of_mem_take ha
    have h2 := (mem_sortByReceived a _).mp h1
    have h3 := List.of_mem_filter h2
    simp at h3
    exact h3
  · exact List.length_take_le n1 _
  · exact (pairwise_sortByReceived _).sublist (List.take_sublist _ _)
  · intro a ha b hb
    have hb1 : b ∈ sortByReceived ((lockNextBatch tx1 n1 db).2.filter
        (fun r => !r.processed && r.lockedBy = none)) := List.mem_of_mem_take hb
    have hb2 := (mem_sortByReceived b _).mp hb1
    have hbnone : b.lockedBy = none := by
      have h := List.of_mem_filter hb2
      simp at h
      exact h.2
    have hbmem : b ∈ (lockNextBatch tx1 n1 db).2 := List.mem_of_mem_filter hb2
    have hmap : (lockNextBatch tx1 n1 db).2 = db.map (fun r =>
        if (lockNextBatch tx1 n1 db).1.any (fun s => s.rid = r.rid) then
          { r with lockedBy := some tx1 }
        else r) := rfl
    rw [hmap] at hbmem
    rcases List.mem_map.mp hbmem with ⟨r, hr, hfr⟩
    by_cases hany : (lockNextBatch tx1 n1 db).1.any (fun s => s.rid = r.rid) = true
    · exfalso
      rw [if_pos hany] at hfr
      rw [← hfr] at hbnone
      simp at hbnone
    · rw [if_neg hany] at hfr
      intro hab
      simp only [List.any_eq_true, not_exists, not_and] at hany
      have hra : a.rid = r.rid := by rw [hab, ← hfr]
      exact absurd (decide_eq_true hra) (by simpa using hany a ha)

end Wpp

namespace Wpp

/-- Witness for C7 on a one-row table. -/
theorem lockNextBatch_disjoint_witness :
    ({ rid := 1, receivedAt := 0, processed := false, lockedBy := none } : LockableRow).processed
        = false ∧
    ({ rid := 1, receivedAt := 0, processed := false, lockedBy := none } : LockableRow).lockedBy
        = none :=
  (lockNextBatch_disjoint 1 2 1 1
      [{ rid := 1, receivedAt := 0, processed := false, lockedBy := none }]).1
    { rid := 1, receivedAt := 0, processed := false, lockedBy := none } (by decide)

/-- A string with fewer than eight digit characters never looks like a
phone. -/
theorem looksLikePhone_few_digits (s : String)
    (h : (s.data.filter Char.isDigit).length < 8) : looksLikePhone s = false := by
  simp [looksLikePhone]
  intro _ h8
  omega

end Wpp

namespace Wpp

/-- A character that no dropped prefix predicate holds of stays in the
list after dropWhile. -/
theorem mem_dropWhile_of (p : Char → Bool) (c : Char) (l : List Char) (h : c ∈ l)
    (hp : p c = false) : c ∈ l.dropWhile p := by
  induction l with
  | nil => exact absurd h (by simp)
  | cons a tl ih =>
    by_cases hpa : p a = true
    · rw [List.dropWhile_cons_of_pos hpa]
      rcases List.mem_cons.mp h with h1 | h1
      · rw [h1] at hp
        rw [hpa] at hp
        exact absurd hp (by simp)
      · exact ih h1
    · rw [List.dropWhile_cons_of_neg hpa]
      exact h

/-- Non-whitespace characters survive trimming. -/
theorem mem_trimChars_of (c : Char) (l : List Char) (hcl : c ∈ l)
    (hw : c.isWhitespace = false) : c ∈ trimChars l := by
  unfold trimChars
  rw [List.mem_reverse]
  apply mem_dropWhile_of _ _ _ _ hw
  rw [List.mem_reverse]
  exact mem_dropWhile_of _ _ _ hcl hw

/-- A string holding a character outside the phone alphabet, other than
the plus sign, never looks like a phone. -/
theorem looksLikePhone_bad_char (s : String) (c : Char) (hc : c ∈ s.data)
    (hpc : phoneChar c = false) (hplus : c ≠ '+') : looksLikePhone s = false := by
  have hw : c.isWhitespace = false := by
    simp [phoneChar] at hpc
    simp [hpc]
  have hmem : c ∈ (jsTrim s).data := mem_trimChars_of c s.data hc hw
  have hshape : phoneShape (jsTrim s).data = false := by
    cases hd : (jsTrim s).data with
    | nil => rfl
    | cons c0 rest =>
      rw [hd] at hmem
      simp only [phoneShape]
      by_cases h0 : c0 = '+'
      · rw [if_pos h0]
        have hcr : c ∈ rest := by
          rcases List.mem_cons.mp hmem with h1 | h1
          · exact absurd (h1.trans h0) hplus
          · exact h1
        have : rest.all phoneChar = false := by
          apply Bool.not_eq_true _ |>.mp
          intro hall
          exact absurd (List.all_eq_true.mp hall c hcr) (by simp [hpc])
        simp [this]
      · rw [if_neg h0]
        have : (c0 :: rest).all phoneChar = false := by
          apply Bool.not_eq_true _ |>.mp
          intro hall
          exact absurd (List.all_eq_true.mp hall c hmem) (by simp [hpc])
        simp [this]
  simp [looksLikePhone, hshape]

end Wpp

namespace Wpp

/-- String concatenation concatenates the character data. -/
theorem string_data_append (a b : String) : (a ++ b).data = a.data ++ b.data := rfl

/-- Character data of a packed list. -/
theorem string_mk_data (l : List Char) : (String.mk l).data = l := rfl

/-- A masked phone never looks like a phone: it keeps at most four
characters of the original. -/
theorem maskPhone_noPhone (x : Option String) : looksLikePhone (maskPhone x) = false := by
  rcases x with _ | p
  · decide
  · by_cases hp : p = ""
    · simp only [maskPhone, hp, if_true, if_pos]
      decide
    · simp only [maskPhone, hp, if_false]
      by_cases hlen : (jsTrim p).length ≤ 4
      · rw [if_pos hlen]
        apply looksLikePhone_few_digits
        rw [string_data_append, List.filter_append, List.length_append]
        have h1 : (List.filter Char.isDigit ("***".data)).length = 0 := by decide
        have h2 : (List.filter Char.isDigit (jsTrim p).data).length ≤ (jsTrim p).data.length :=
          List.length_filter_le _ _
        have h3 : (jsTrim p).data.length = (jsTrim p).length := rfl
        omega
      · rw [if_neg hlen]
        apply looksLikePhone_few_digits
        rw [string_data_append, string_mk_data, List.filter_append, List.length_append]
        have h1 : (List.filter Char.isDigit ("***".data)).length = 0 := by decide
        have h2 : (List.filter Char.isDigit
            ((jsTrim p).data.drop ((jsTrim p).length - 4))).length ≤
            ((jsTrim p).data.drop ((jsTrim p).length - 4)).length :=
          List.length_filter_le _ _
        have h3 : ((jsTrim p).data.drop ((jsTrim p).length - 4)).length =
            (jsTrim p).data.length - ((jsTrim p).length - 4) := List.length_drop _ _
        have h4 : (jsTrim p).data.length = (jsTrim p).length := rfl
        have h5 : (List.filter Char.isDigit
            (({ data := List.drop ((jsTrim p).length - 4) (jsTrim p).data } : String).data)).length =
            (List.filter Char.isDigit ((jsTrim p).data.drop ((jsTrim p).length - 4))).length := rfl
        omega

/-- The sanitizer string pass never returns a phone-looking string. -/
theorem sanitizeString_noPhone (s : String) (maxLen : Nat) (kh : Option String) :
    looksLikePhone (sanitizeString s maxLen kh) = false := by
  unfold sanitizeString
  by_cases h1 : (match kh with
      | some k => k ≠ "" && phoneKeyPat k
      | none => false) = true
  · rw [if_pos h1]
    exact maskPhone_noPhone _
  · rw [if_neg h1]
    by_cases h2 : looksLikePhone s = true
    · rw [if_pos h2]
      exact maskPhone_noPhone _
    · rw [if_neg h2]
      by_cases h3 : s.length ≤ maxLen
      · rw [if_pos h3]
        exact Bool.not_eq_true _ |>.mp h2
      · rw [if_neg h3]
        apply looksLikePhone_bad_char _ ':'
        · rw [string_data_append, string_data_append, string_data_append]
          apply List.mem_append_left
          apply List.mem_append_left
          apply List.mem_append_right
          decide
        · decide
        · decide

/-- An ISO timestamp rendering never looks like a phone: it contains a
colon. -/
theorem toISOString_noPhone (ms : Int) : looksLikePhone (toISOString ms) = false := by
  apply looksLikePhone_bad_char _ ':'
  · unfold toISOString
    rw [string_data_append, string_data_append, string_data_append, string_data_append,
      string_data_append, string_data_append, string_data_append, string_data_append,
      string_data_append, string_data_append, string_data_append, string_data_append]
    apply List.mem_append_left
    apply List.mem_append_left
    apply List.mem_append_left
    apply List.mem_append_left
    apply List.mem_append_left
    apply List.mem_append_left
    apply List.mem_append_right
    decide
  · decide
  · decide

end Wpp

namespace Wpp

/-- Pointwise no-phone over a value list. -/
theorem noPhoneStrList_of (l : List LogVal) (h : ∀ x ∈ l, noPhoneStr x = true) :
    noPhoneStrList l = true := by
  induction l with
  | nil => rfl
  | cons x xs ih =>
    show (noPhoneStr x && noPhoneStrList xs) = true
    rw [h x (List.mem_cons_self x xs), ih (fun y hy => h y (List.mem_cons_of_mem x hy))]
    rfl

/-- Pointwise no-phone over object entries. -/
theorem noPhoneStrEntries_of (l : List (String × LogVal))
    (h : ∀ e ∈ l, noPhoneStr e.2 = true) : noPhoneStrEntries l = true := by
  induction l with
  | nil => rfl
  | cons e es ih =>
    obtain ⟨k, v⟩ := e
    show (noPhoneStr v && noPhoneStrEntries es) = true
    rw [h (k, v) (List.mem_cons_self _ es), ih (fun y hy => h y (List.mem_cons_of_mem _ hy))]
    rfl

/-- The array-cap marker never looks like a phone. -/
theorem arrayCap_noPhone (n : Nat) :
    looksLikePhone ("[Array(" ++ toString n ++ ")]") = false := by
  apply looksLikePhone_bad_char _ '['
  · rw [string_data_append, string_data_append]
    apply List.mem_append_left
    apply List.mem_append_left
    decide
  · decide
  · decide

/-- The array-overflow marker never looks like a phone. -/
theorem arrayMore_noPhone (n : Nat) :
    looksLikePhone ("[+" ++ toString n ++ " items]") = false := by
  apply looksLikePhone_bad_char _ '['
  · rw [string_data_append, string_data_append]
    apply List.mem_append_left
    apply List.mem_append_left
    decide
  · decide
  · decide

/-- Sanitized values carry no phone-looking string anywhere. -/
theorem sanitizeVal_noPhone (maxLen : Nat) :
    ∀ (fuel : Nat) (kh : Option String) (v : LogVal),
      noPhoneStr (sanitizeVal maxLen fuel kh v) = true := by
  intro fuel
  induction fuel with
  | zero =>
    intro kh v
    cases v with
    | vnull => rfl
    | vundef => rfl
    | vbool b => rfl
    | vnum n => rfl
    | vstr s =>
      show (!looksLikePhone (sanitizeString s maxLen kh)) = true
      rw [sanitizeString_noPhone]
      rfl
    | vdate ms =>
      cases ms with
      | none => rfl
      | some m =>
        show (!looksLikePhone (toISOString m)) = true
        rw [toISOString_noPhone]
        rfl
    | varr items =>
      show (!looksLikePhone ("[Array(" ++ toString items.length ++ ")]")) = true
      rw [arrayCap_noPhone]
      rfl
    | vobj entries =>
      show (!looksLikePhone "[Object]") = true
      rw [show looksLikePhone "[Object]" = false from by decide]
      rfl
  | succ n ih =>
    intro kh v
    cases v with
    | vnull => rfl
    | vundef => rfl
    | vbool b => rfl
    | vnum m => rfl
    | vstr s =>
      show (!looksLikePhone (sanitizeString s maxLen kh)) = true
      rw [sanitizeString_noPhone]
      rfl
    | vdate ms =>
      cases ms with
      | none => rfl
      | some m =>
        show (!looksLikePhone (toISOString m)) = true
        rw [toISOString_noPhone]
        rfl
    | varr items =>
      simp only [sanitizeVal]
      show noPhoneStrList _ = true
      apply noPhoneStrList_of
      intro x hx
      by_cases hlen : items.length > 20
      · rw [if_pos hlen] at hx
        rcases List.mem_append.mp hx with h1 | h1
        · rcases List.mem_map.mp h1 with ⟨it, _, hit⟩
          rw [← hit]
          exact ih kh it
        · have hx2 : x = LogVal.vstr ("[+" ++ toString (items.length - 20) ++ " items]") := by
            simpa using h1
          rw [hx2]
          show (!looksLikePhone ("[+" ++ toString (items.length - 20) ++ " items]")) = true
          rw [arrayMore_noPhone]
          rfl
      · rw [if_neg hlen] at hx
        rcases List.mem_map.mp hx with ⟨it, _, hit⟩
        rw [← hit]
        exact ih kh it
    | vobj entries =>
      simp only [sanitizeVal]
      show noPhoneStrEntries _ = true
      apply noPhoneStrEntries_of
      intro e he
      by_cases hlen : entries.length > 40
      · rw [if_pos hlen] at he
        rcases List.mem_append.mp he with h1 | h1
        · rcases List.mem_map.mp h1 with ⟨e0, _, he0⟩
          rw [← he0]
          by_cases hsens : sensitiveKeyPat e0.1 = true
          · simp only [hsens, if_true]
            decide
          · simp only [hsens, if_false]
            cases hv : e0.2 with
            | vstr s =>
              by_cases hph : phoneKeyPat e0.1 = true
              · simp only [hph, if_true]
                show (!looksLikePhone (maskPhone (some s))) = true
                rw [maskPhone_noPhone]
                rfl
              · simp [hph, noPhoneStr, sanitizeString_noPhone]
            | vnull => exact ih (some e0.1) _
            | vundef => exact ih (some e0.1) _
            | vbool b => exact ih (some e0.1) _
            | vnum m => exact ih (some e0.1) _
            | vdate ms => exact ih (some e0.1) _
            | varr its => exact ih (some e0.1) _
            | vobj es => exact ih (some e0.1) _
        · have he2 : e = ("__truncated_keys", LogVal.vnum (entries.length - 40)) := by
            simpa using h1
          rw [he2]
          rfl
      · rw [if_neg hlen] at he
        rcases List.mem_map.mp he with ⟨e0, _, he0⟩
        rw [← he0]
        by_cases hsens : sensitiveKeyPat e0.1 = true
        · simp only [hsens, if_true]
          decide
        · simp only [hsens, if_false]
          cases hv : e0.2 with
          | vstr s =>
            by_cases hph : phoneKeyPat e0.1 = true
            · simp only [hph, if_true]
              show (!looksLikePhone (maskPhone (some s))) = true
              rw [maskPhone_noPhone]
              rfl
            · simp [hph, noPhoneStr, sanitizeString_noPhone]
          | vnull => exact ih (some e0.1) _
          | vundef => exact ih (some e0.1) _
          | vbool b => exact ih (some e0.1) _
          | vnum m => exact ih (some e0.1) _
          | vdate ms => exact ih (some e0.1) _
          | varr its => exact ih (some e0.1) _
          | vobj es => exact ih (some e0.1) _

end Wpp

namespace Wpp

/-- Pointwise redaction soundness over a value list. -/
theorem sensOKList_of (l : List LogVal) (h : ∀ x ∈ l, sensOK x = true) :
    sensOKList l = true := by
  induction l with
  | nil => rfl
  | cons x xs ih =>
    show (sensOK x && sensOKList xs) = true
    rw [h x (List.mem_cons_self x xs), ih (fun y hy => h y (List.mem_cons_of_mem x hy))]
    rfl

/-- Pointwise redaction soundness over object entries. -/
theorem sensOKEntries_of (l : List (String × LogVal))
    (h : ∀ e ∈ l, (sensitiveKeyPat e.1 = true → e.2 = LogVal.vstr "[REDACTED]") ∧
      sensOK e.2 = true) : sensOKEntries l = true := by
  induction l with
  | nil => rfl
  | cons e es ih =>
    obtain ⟨k, v⟩ := e
    have hrest := ih (fun y hy => h y (List.mem_cons_of_mem _ hy))
    have hv := h (k, v) (List.mem_cons_self _ es)
    by_cases hs : sensitiveKeyPat k = true
    · have hred : v = LogVal.vstr "[REDACTED]" := hv.1 hs
      rw [hred] at hv ⊢
      show ((if sensitiveKeyPat k then decide ("[REDACTED]" = "[REDACTED]") else true) &&
        sensOK (LogVal.vstr "[REDACTED]") && sensOKEntries es) = true
      rw [hs]
      simp [hrest, show sensOK (LogVal.vstr "[REDACTED]") = true from rfl]
    · show ((if sensitiveKeyPat k then _ else true) && sensOK v && sensOKEntries es) = true
      simp only [Bool.not_eq_true] at hs
      rw [hs]
      simp [hv.2, hrest]

/-- Sanitized values carry the redaction marker under every sensitive
key. -/
theorem sanitizeVal_sensOK (maxLen : Nat) :
    ∀ (fuel : Nat) (kh : Option String) (v : LogVal),
      sensOK (sanitizeVal maxLen fuel kh v) = true := by
  intro fuel
  induction fuel with
  | zero =>
    intro kh v
    cases v with
    | vnull => rfl
    | vundef => rfl
    | vbool b => rfl
    | vnum n => rfl
    | vstr s => rfl
    | vdate ms => cases ms <;> rfl
    | varr items => rfl
    | vobj entries => rfl
  | succ n ih =>
    intro kh v
    cases v with
    | vnull => rfl
    | vundef => rfl
    | vbool b => rfl
    | vnum m => rfl
    | vstr s => rfl
    | vdate ms => cases ms <;> rfl
    | varr items =>
      simp only [sanitizeVal]
      show sensOKList _ = true
      apply sensOKList_of
      intro x hx
      by_cases hlen : items.length > 20
      · rw [if_pos hlen] at hx
        rcases List.mem_append.mp hx with h1 | h1
        · rcases List.mem_map.mp h1 with ⟨it, _, hit⟩
          rw [← hit]
          exact ih kh it
        · have hx2 : x = LogVal.vstr ("[+" ++ toString (items.length - 20) ++ " items]") := by
            simpa using h1
          rw [hx2]
          rfl
      · rw [if_neg hlen] at hx
        rcases List.mem_map.mp hx with ⟨it, _, hit⟩
        rw [← hit]
        exact ih kh it
    | vobj entries =>
      simp only [sanitizeVal]
      show sensOKEntries _ = true
      apply sensOKEntries_of
      intro e he
      have hcore : ∀ e0 : String × LogVal,
          e = (if sensitiveKeyPat e0.1 then (e0.1, LogVal.vstr "[REDACTED]")
            else match e0.2 with
              | .vstr s =>
                if phoneKeyPat e0.1 then (e0.1, LogVal.vstr (maskPhone (some s)))
                else (e0.1, LogVal.vstr (sanitizeString s maxLen (some e0.1)))
              | v => (e0.1, sanitizeVal maxLen n (some e0.1) v)) →
          (sensitiveKeyPat e.1 = true → e.2 = LogVal.vstr "[REDACTED]") ∧ sensOK e.2 = true := by
        intro e0 hee
        by_cases hs : sensitiveKeyPat e0.1 = true
        · rw [hee, hs]
          exact ⟨fun _ => rfl, rfl⟩
        · have hkey : e.1 = e0.1 := by
            rw [hee]
            simp only [Bool.not_eq_true] at hs
            rw [hs]
            cases hv : e0.2 with
            | vstr s => by_cases hph : phoneKeyPat e0.1 = true <;> simp [hph]
            | vnull => rfl
            | vundef => rfl
            | vbool b => rfl
            | vnum m => rfl
            | vdate ms => rfl
            | varr its => rfl
            | vobj es => rfl
          constructor
          · intro hsens
            rw [hkey] at hsens
            exact absurd hsens hs
          · rw [hee]
            simp only [Bool.not_eq_true] at hs
            rw [hs]
            cases hv : e0.2 with
            | vstr s =>
              by_cases hph : phoneKeyPat e0.1 = true
              · rw [hph]
                rfl
              · simp only [Bool.not_eq_true] at hph
                rw [hph]
                rfl
            | vnull => exact ih (some e0.1) _
            | vundef => exact ih (some e0.1) _
            | vbool b => exact ih (some e0.1) _
            | vnum m => exact ih (some e0.1) _
            | vdate ms => exact ih (some e0.1) _
            | varr its => exact ih (some e0.1) _
            | vobj es => exact ih (some e0.1) _
      by_cases hlen : entries.length > 40
      · rw [if_pos hlen] at he
        rcases List.mem_append.mp he with h1 | h1
        · rcases List.mem_map.mp h1 with ⟨e0, _, he0⟩
          exact hcore e0 he0.symm
        · have he2 : e = ("__truncated_keys", LogVal.vnum (entries.length - 40)) := by
            simpa using h1
          rw [he2]
          constructor
          · intro habs
            have habs2 : sensitiveKeyPat "__truncated_keys" = true := habs
            exact absurd habs2 (by decide)
          · rfl
      · rw [if_neg hlen] at he
        rcases List.mem_map.mp he with ⟨e0, _, he0⟩
        exact hcore e0 he0.symm

end Wpp

namespace Wpp

/-- C9 counterexample: a phone number stored as a JSON number under the
key phone is emitted unchanged by the sanitizer, not in the masked
string form, so not every phone-like value appears masked. -/
theorem sanitizer_numeric_phone_counterexample :
    sanitizeForLog (.vobj [("phone", .vnum 15551234567)]) =
      .vobj [("phone", .vnum 15551234567)] ∧
    LogVal.vnum 15551234567 ≠ LogVal.vstr (maskPhone (some "15551234567")) :=
  ⟨rfl, fun h => LogVal.noConfusion h⟩

/-- C9 amended: every object key matching the sensitive pattern is
emitted as the redaction marker; phone-like string values, by key or by
shape, are emitted as three stars and the last four characters, and no
string value in sanitized output looks like a phone; a numeric value
under a phone key is emitted unchanged (see the counterexample). -/
theorem sanitizer_amended (v : LogVal) :
    sensOK (sanitizeForLog v) = true ∧
    noPhoneStr (sanitizeForLog v) = true ∧
    maskPhone (some "+15551234567") = "***4567" ∧
    (∀ k s : String, sensitiveKeyPat k = false → phoneKeyPat k = true →
      sanitizeForLog (.vobj [(k, .vstr s)]) = .vobj [(k, .vstr (maskPhone (some s)))]) ∧
    (∀ k s : String, sensitiveKeyPat k = true →
      sanitizeForLog (.vobj [(k, .vstr s)]) = .vobj [(k, .vstr "[REDACTED]")]) := by
  refine ⟨sanitizeVal_sensOK 400 4 none v, sanitizeVal_noPhone 400 4 none v, by decide, ?_, ?_⟩
  · intro k s hs hp
    show sanitizeVal 400 4 none (.vobj [(k, .vstr s)]) = _
    simp [sanitizeVal, hs, hp]
  · intro k s hs
    show sanitizeVal 400 4 none (.vobj [(k, .vstr s)]) = _
    simp [sanitizeVal, hs]

/-- Witness for the amended C9 at a concrete phone entry. -/
theorem sanitizer_amended_witness :
    sanitizeForLog (.vobj [("phone", .vstr "+15551234567")]) =
      .vobj [("phone", .vstr (maskPhone (some "+15551234567")))] :=
  (sanitizer_amended (.vobj [])).2.2.2.1 "phone" "+15551234567" (by decide) (by decide)

end Wpp

namespace Wpp

/-- C10: a template event whose resolved template has no version rows at
all completes normally: updateLatestTemplateVersion writes nothing, the
template row still gets the event status, and the raw row is marked
processed with no error. -/
theorem template_event_without_versions
    (integrations : List IntegrationMapping) (st : TemplateProjectionState)
    (ne : NormalizedTemplate) (integ : IntegrationMapping) (tpl : TemplateTableRow)
    (status : TemplateStatus) (pid : String) (now : Int)
    (hint : findActiveByAppId integrations st.raw.appId = some integ)
    (hstatus : ne.templateStatus = some status)
    (hpid : ne.templateProviderId = some pid)
    (htpl : findTemplateByProviderId st.templates integ.id pid = some tpl)
    (hver : st.versions.filter (fun v => v.templateId = tpl.id) = []) :
    processTemplateEvent integrations st (some ne) now =
      { templates := updateTemplateStatus st.templates tpl.id status ne.rejectionReason
          ne.correctCategory now
        versions := st.versions
        raw := markProcessedRow st.raw none now } ∧
    (markProcessedRow st.raw none now).processed = true ∧
    (markProcessedRow st.raw none now).lastError = none ∧
    (∀ t ∈ updateTemplateStatus st.templates tpl.id status ne.rejectionReason
        ne.correctCategory now, t.id = tpl.id → t.status = status.toDb) := by
  have hlv : latestVersion st.versions tpl.id = none := by
    unfold latestVersion
    rw [hver]
    rfl
  have hulv : updateLatestTemplateVersion st.versions tpl.id status ne.rejectionReason
      ne.eventAt now = st.versions := by
    unfold updateLatestTemplateVersion
    rw [hlv]
  refine ⟨?_, rfl, ?_, ?_⟩
  · unfold processTemplateEvent
    rw [hint]
    simp [hstatus, hpid, htpl, hulv]
  · simp [markProcessedRow, trimError]
  · intro t ht hid
    rcases List.mem_map.mp ht with ⟨t0, ht0, hft⟩
    by_cases h0 : t0.id = tpl.id
    · rw [← hft]
      simp [h0]
    · rw [← hft] at hid
      rw [if_neg h0] at hid
      exact absurd hid h0

/-- Witness for C10 at a concrete state without version rows. -/
theorem template_event_without_versions_witness :
    processTemplateEvent sampleIntegrations sampleTemplateState (some sampleTemplateEvent) 5 =
      { templates := updateTemplateStatus sampleTemplateState.templates 11
          TemplateStatus.APPROVED sampleTemplateEvent.rejectionReason
          sampleTemplateEvent.correctCategory 5
        versions := sampleTemplateState.versions
        raw := markProcessedRow sampleTemplateState.raw none 5 } :=
  (template_event_without_versions sampleIntegrations sampleTemplateState sampleTemplateEvent
    { id := 7, companyId := 3, gupshupAppId := "A", isActive := true }
    { id := 11, companyId := 3, integrationId := 7, providerTemplateId := some "tpl-1",
      name := "welcome", language := none, status := .SUBMITTED, rejectionReason := none,
      correctCategory := none, lastSyncedAt := none, updatedAt := none }
    .APPROVED "tpl-1" 5 rfl rfl rfl rfl rfl).1

end Wpp
